import Mathlib

/-!
# rabbit-hole: queue operations of the management-API client (`queues.go`)

A shallow embedding of `queues.go`: the resource model (`QueueInfo`, `QueueSettings` and the
records nested in them), the six queue operations, and the standard-library functions they
call (`net/url.QueryEscape`, `encoding/json.Marshal`). The client helpers the operations call
and `queues.go` does not define are parameters of the operations; a model of them that follows
the specification (request builder, executor, decoder) is given separately. The properties of
the request paths, the request bodies and the results of the operations follow.

Go strings are byte sequences; they are modelled as lists of bytes (`Fin 256`).
-/

namespace RabbitHole

/-! ## Bytes and strings -/

/-- A Go `byte`. Arithmetic on `Fin 256` wraps modulo 256 as Go's does. -/
abbrev Byte := Fin 256

/-- A Go `string` (or `[]byte`): an arbitrary sequence of bytes. -/
abbrev Bytes := List Byte

/-- The byte of an ASCII character literal such as `'a'`. -/
def ch (c : Char) : Byte := Fin.ofNat c.toNat

/-- The bytes of a string literal (Go source text is UTF-8). -/
def str (s : String) : Bytes :=
  (s.data.flatMap String.utf8EncodeChar).map (fun b => Fin.ofNat b.toNat)

/-! ## `net/url`: escaping and unescaping -/

/-- The escaping modes of `net/url` that matter here: `encodeQueryComponent` is the mode of
`QueryEscape`/`QueryUnescape`, `encodePathSegment` the mode of `PathEscape`/`PathUnescape`. -/
inductive Encoding where
  | encodePathSegment
  | encodeQueryComponent
  deriving DecidableEq, Repr

/-- Go `url.shouldEscape(c, mode)`: reports whether byte `c` must be percent-escaped. -/
def shouldEscape (c : Byte) (mode : Encoding) : Bool :=
  -- §2.3 Unreserved characters (alphanum)
  if (ch 'a' ≤ c && c ≤ ch 'z') || (ch 'A' ≤ c && c ≤ ch 'Z') || (ch '0' ≤ c && c ≤ ch '9') then
    false
  -- §2.3 Unreserved characters (mark)
  else if c = ch '-' || c = ch '_' || c = ch '.' || c = ch '~' then
    false
  -- §2.2 Reserved characters (reserved)
  else if c = ch '$' || c = ch '&' || c = ch '+' || c = ch ',' || c = ch '/' || c = ch ':'
      || c = ch ';' || c = ch '=' || c = ch '?' || c = ch '@' then
    match mode with
    | .encodePathSegment => c = ch '/' || c = ch ';' || c = ch ',' || c = ch '?'
    | .encodeQueryComponent => true
  -- Everything else must be escaped.
  else true

/-- Go `const upperhex = "0123456789ABCDEF"`. -/
def upperhex : Bytes := str "0123456789ABCDEF"

/-- One iteration of the second loop of Go `url.escape`: the bytes written for input byte `c`. -/
def escapeByte (mode : Encoding) (c : Byte) : Bytes :=
  if c = ch ' ' ∧ mode = .encodeQueryComponent then
    [ch '+']
  else if shouldEscape c mode then
    [ch '%', upperhex.getD (c >>> 4).val 0, upperhex.getD (c &&& 15).val 0]
  else
    [c]

/-- Go `url.escape(s, mode)`. The first loop counts the bytes to rewrite and the string is
returned as is when there is none; otherwise the second loop rewrites it byte by byte. -/
def escape (s : Bytes) (mode : Encoding) : Bytes :=
  let spaceCount := s.countP (fun c => shouldEscape c mode && (c = ch ' ' && mode = .encodeQueryComponent))
  let hexCount := s.countP (fun c => shouldEscape c mode && !(c = ch ' ' && mode = .encodeQueryComponent))
  if spaceCount = 0 ∧ hexCount = 0 then s
  else s.flatMap (escapeByte mode)

/-- Go `url.QueryEscape`. -/
def QueryEscape (s : Bytes) : Bytes := escape s .encodeQueryComponent

/-- Go `url.ishex`. -/
def ishex (c : Byte) : Bool :=
  if ch '0' ≤ c ∧ c ≤ ch '9' then true
  else if ch 'a' ≤ c ∧ c ≤ ch 'f' then true
  else if ch 'A' ≤ c ∧ c ≤ ch 'F' then true
  else false

/-- Go `url.unhex`. -/
def unhex (c : Byte) : Byte :=
  if ch '0' ≤ c ∧ c ≤ ch '9' then c - ch '0'
  else if ch 'a' ≤ c ∧ c ≤ ch 'f' then c - ch 'a' + 10
  else if ch 'A' ≤ c ∧ c ≤ ch 'F' then c - ch 'A' + 10
  else 0

/-- Go `url.unescape(s, mode)` for the two modes above; `none` is the `EscapeError` returned
for a `%` that is not followed by two hexadecimal digits. -/
def unescape (mode : Encoding) : Bytes → Option Bytes
  | [] => some []
  | c :: rest =>
    if c = ch '%' then
      match rest with
      | a :: b :: rest2 =>
        if ishex a && ishex b then
          (unescape mode rest2).map (fun t => (unhex a <<< 4 ||| unhex b) :: t)
        else none
      | _ => none
    else if c = ch '+' then
      (unescape mode rest).map
        (fun t => (if mode = .encodeQueryComponent then ch ' ' else ch '+') :: t)
    else
      (unescape mode rest).map (fun t => c :: t)

/-- Go `url.QueryUnescape`: `+` decodes to a space. -/
def QueryUnescape (s : Bytes) : Option Bytes := unescape .encodeQueryComponent s

/-- Go `url.PathUnescape`: percent-decoding of a path segment, `+` stays a literal plus. -/
def PathUnescape (s : Bytes) : Option Bytes := unescape .encodePathSegment s

/-! ## Resource paths built by the queue operations -/

/-- The path argument of `ListQueues`: the literal `"queues"`. -/
def listQueuesPath : Bytes := str "queues"

/-- The path argument of `ListQueuesIn`: `"queues/"+url.QueryEscape(vhost)`. -/
def listQueuesInPath (vhost : Bytes) : Bytes :=
  str "queues/" ++ QueryEscape vhost

/-- The path argument of `GetQueue`: `"queues/"+url.QueryEscape(vhost)+"/"+queue`. -/
def getQueuePath (vhost queue : Bytes) : Bytes :=
  str "queues/" ++ QueryEscape vhost ++ str "/" ++ queue

/-- The path argument of `DeclareQueue`:
`"queues/"+url.QueryEscape(vhost)+"/"+url.QueryEscape(queue)`. -/
def declareQueuePath (vhost queue : Bytes) : Bytes :=
  str "queues/" ++ QueryEscape vhost ++ str "/" ++ QueryEscape queue

/-- The path argument of `DeleteQueue`:
`"queues/"+url.QueryEscape(vhost)+"/"+url.QueryEscape(queue)`. -/
def deleteQueuePath (vhost queue : Bytes) : Bytes :=
  str "queues/" ++ QueryEscape vhost ++ str "/" ++ QueryEscape queue

/-- The path argument of `PurgeQueue`:
`"queues/"+url.QueryEscape(vhost)+"/"+url.QueryEscape(queue)+"/contents"`. -/
def purgeQueuePath (vhost queue : Bytes) : Bytes :=
  str "queues/" ++ QueryEscape vhost ++ str "/" ++ QueryEscape queue ++ str "/contents"

/-! ## JSON values, `QueueSettings` and its serialisation -/

/-- A JSON value as the text of a body denotes it: null, boolean, number (its literal, as
written), string, array or object (its members in the order written). -/
inductive Value where
  | null
  | bool (b : Bool)
  | number (lit : Bytes)
  | string (s : Bytes)
  | array (xs : List Value)
  | object (members : List (Bytes × Value))

instance : Inhabited Value := ⟨Value.null⟩

/-- A finite Go `float64`, the number `m * 2 ^ e`; `m` is odd, or `m` and `e` are both zero,
so that equal numbers are equal records (the sign of zero is not kept). -/
structure Float64 where
  m : Int
  e : Int
  deriving DecidableEq

/-- The integer a `float64` is, when it is one. -/
def Float64.toInt (f : Float64) : Option Int :=
  if 0 ≤ f.e then some (f.m * 2 ^ f.e.toNat) else none

/-- A dynamically typed Go value (`interface{}`): nil, a `bool`, a value of an integer type,
a `float64`, a `string`, a `[]interface{}` or a non-nil `map[string]interface{}` (its
entries, with pairwise distinct keys, in an order that means nothing). -/
inductive GoValue where
  | nil
  | bool (b : Bool)
  | int (n : Int)
  | float64 (f : Float64)
  | string (s : Bytes)
  | slice (xs : List GoValue)
  | map (es : List (Bytes × GoValue))

instance : Inhabited GoValue := ⟨GoValue.nil⟩

/-- Go `map[string]interface{}`: `none` is the nil map, `some es` a non-nil map with the
entries `es`; the keys of a map are pairwise distinct and the order of the list means nothing. -/
abbrev GoMap := Option (List (Bytes × GoValue))

/-- The keys of the entries of a map. -/
def keysOf (es : List (Bytes × GoValue)) : List Bytes := es.map (fun e => e.1)

/-- Go `type QueueSettings struct` with its JSON tags `durable`, `auto_delete`, `arguments`. -/
structure QueueSettings where
  Durable : Bool
  AutoDelete : Bool
  Arguments : GoMap

/-- The part of `encoding/json`'s encoder that depends on dynamic values: how a map key is
quoted and how an `interface{}` value is written (which fails for unsupported values). -/
structure Encoder (Error : Type) where
  encodeString : Bytes → Bytes
  encodeValue : GoValue → Except Error Bytes

/-- The text `encoding/json` writes for a Go `bool`. -/
def encodeBool (b : Bool) : Bytes := if b then str "true" else str "false"

/-- The members `"key":value` for a list of entries; fails with the first value error. -/
def encodeMembers {Error : Type} (enc : Encoder Error) :
    List (Bytes × GoValue) → Except Error (List Bytes)
  | [] => .ok []
  | (k, v) :: rest =>
    match enc.encodeValue v with
    | .error e => .error e
    | .ok t =>
      match encodeMembers enc rest with
      | .error e => .error e
      | .ok ts => .ok ((enc.encodeString k ++ str ":" ++ t) :: ts)

/-- The entries of a map in the order `encoding/json` writes them: sorted by key. -/
def sortedEntries (es : List (Bytes × GoValue)) : List (Bytes × GoValue) :=
  es.insertionSort (fun a b => a.1 ≤ b.1)

/-- The text `encoding/json` writes for a `map[string]interface{}`: `null` for the nil map,
otherwise `{` members sorted by key and separated by `,` `}`. -/
def encodeMap {Error : Type} (enc : Encoder Error) : GoMap → Except Error Bytes
  | none => .ok (str "null")
  | some es =>
    match encodeMembers enc (sortedEntries es) with
    | .error e => .error e
    | .ok ts => .ok (str "\x7b" ++ (str ",").intercalate ts ++ str "\x7d")

/-- Go `json.Marshal(info)` for `info QueueSettings`: the struct encoder writes the three
fields in declaration order under their tag names, none of them `omitempty`. -/
def Marshal {Error : Type} (enc : Encoder Error) (info : QueueSettings) : Except Error Bytes :=
  match encodeMap enc info.Arguments with
  | .error e => .error e
  | .ok args =>
    .ok (str "\x7b\"durable\":" ++ encodeBool info.Durable
      ++ str ",\"auto_delete\":" ++ encodeBool info.AutoDelete
      ++ str ",\"arguments\":" ++ args ++ str "\x7d")

/-! ## The queue operations -/

/-- The client helpers `queues.go` calls and does not define (request construction and
execution), taken as parameters, with the JSON encoder of dynamic values. -/
structure Helpers (Client Request Response Error : Type) where
  newRequestWithBody : Client → Bytes → Bytes → Option Bytes → Except Error Request
  executeRequest : Client → Request → Except Error Response
  enc : Encoder Error

section Operations

variable {Client Request Response Error : Type}

/-- The first lines of `DeclareQueue`: a nil `Arguments` map is replaced by an empty map. -/
def normalise (info : QueueSettings) : QueueSettings :=
  if info.Arguments.isNone then { info with Arguments := some [] } else info

/-- Go `func (c *Client) DeclareQueue(vhost, queue string, info QueueSettings)`. The result
pair is Go's `(res, err)`; `none` is `nil`. -/
def DeclareQueue (h : Helpers Client Request Response Error) (c : Client)
    (vhost queue : Bytes) (info : QueueSettings) : Option Response × Option Error :=
  let info := normalise info
  match Marshal h.enc info with
  | .error err => (none, some err)
  | .ok body =>
    match h.newRequestWithBody c (str "PUT") (declareQueuePath vhost queue) (some body) with
    | .error err => (none, some err)
    | .ok req =>
      match h.executeRequest c req with
      | .error err => (none, some err)
      | .ok res => (some res, none)

/-- Go `func (c *Client) DeleteQueue(vhost, queue string)`. -/
def DeleteQueue (h : Helpers Client Request Response Error) (c : Client)
    (vhost queue : Bytes) : Option Response × Option Error :=
  match h.newRequestWithBody c (str "DELETE") (deleteQueuePath vhost queue) none with
  | .error err => (none, some err)
  | .ok req =>
    match h.executeRequest c req with
    | .error err => (none, some err)
    | .ok res => (some res, none)

/-- Go `func (c *Client) PurgeQueue(vhost, queue string)`. -/
def PurgeQueue (h : Helpers Client Request Response Error) (c : Client)
    (vhost queue : Bytes) : Option Response × Option Error :=
  match h.newRequestWithBody c (str "DELETE") (purgeQueuePath vhost queue) none with
  | .error err => (none, some err)
  | .ok req =>
    match h.executeRequest c req with
    | .error err => (none, some err)
    | .ok res => (some res, none)

end Operations

/-! ## The resource model: `QueueInfo` and the records nested in it -/

/-- Go slice `[]T`: `none` is the nil slice, `some xs` a non-nil slice with elements `xs`. -/
abbrev Slice (α : Type) := Option (List α)

/-- What `queues.go` uses and neither it nor the standard library's integer, string and
`float64` types provide: the types `Port`, `RateDetails` and `MessageStats` declared elsewhere
in the package, Go's `float32`, and `encoding/json`'s conversions into those and into the
integer types. A conversion takes the JSON value and the current content of the target and
gives the new content and whether the value fitted the target (`false`: an
`UnmarshalTypeError` is recorded). -/
structure Extern where
  Port : Type
  RateDetails : Type
  MessageStats : Type
  Float32 : Type
  zeroPort : Port
  zeroRateDetails : RateDetails
  zeroMessageStats : MessageStats
  zeroFloat32 : Float32
  storePort : Value → Port → Port × Bool
  storeRateDetails : Value → RateDetails → RateDetails × Bool
  storeMessageStats : Value → MessageStats → MessageStats × Bool
  storeFloat32 : Value → Float32 → Float32 × Bool
  storeInt : Value → Int → Int × Bool
  storeInt64 : Value → Int → Int × Bool
  equalFold : Bytes → Bytes → Bool

/-- Go `type BackingQueueStatus struct`. -/
structure BackingQueueStatus (X : Extern) where
  Q1 : Int
  Q2 : Int
  Q3 : Int
  Q4 : Int
  Length : Int
  PendingAcks : Int
  RAMMessageCount : Int
  RAMAckCount : Int
  PersistentCount : Int
  AverageIngressRate : Float64
  AverageEgressRate : Float64
  AverageAckIngressRate : X.Float32
  AverageAckEgressRate : X.Float32

/-- Go `type OwnerPidDetails struct`. -/
structure OwnerPidDetails (X : Extern) where
  Name : Bytes
  PeerPort : X.Port
  PeerHost : Bytes

/-- Go `type ChannelDetails struct`. -/
structure ChannelDetails where
  Name : Bytes
  Number : Int
  User : Bytes
  ConnectionName : Bytes
  PeerPort : Int
  PeerHost : Bytes

/-- Go `type Queue struct`. -/
structure Queue where
  Name : Bytes
  Vhost : Bytes

/-- Go `type ConsumerDetails struct`; the two fields are pointers, `none` is nil. -/
structure ConsumerDetails where
  ChannleDetails : Option ChannelDetails
  Queue : Option Queue

/-- Go `type QueueInfo struct`, field by field in declaration order. -/
structure QueueInfo (X : Extern) where
  Name : Bytes
  Vhost : Bytes
  Durable : Bool
  AutoDelete : Bool
  Arguments : GoMap
  Node : Bytes
  Status : Bytes
  Memory : Int
  Consumers : Int
  ConsumerUtilisation : GoValue
  ExclusiveConsumerTag : GoValue
  Policy : Bytes
  MessagesBytes : Int
  MessagesBytesPersistent : Int
  MessagesBytesRAM : Int
  Messages : Int
  MessagesDetails : X.RateDetails
  MessagesPersistent : Int
  MessagesRAM : Int
  MessagesReady : Int
  MessagesReadyDetails : X.RateDetails
  MessagesUnacknowledged : Int
  MessagesUnacknowledgedDetails : X.RateDetails
  MessageStats : X.MessageStats
  OwnerPidDetails : OwnerPidDetails X
  BackingQueueStatus : BackingQueueStatus X
  ConsumerDetails : Slice (Option ConsumerDetails)
  State : Bytes

/-- Go `type DetailedQueueInfo QueueInfo`: a distinct name for the same fields. -/
abbrev DetailedQueueInfo (X : Extern) := QueueInfo X

/-- The JSON tags of `QueueSettings`, in declaration order. -/
def QueueSettings.tags : List Bytes :=
  [str "durable", str "auto_delete", str "arguments"]

/-- The JSON tags of `QueueInfo`, in declaration order. -/
def QueueInfo.tags : List Bytes :=
  [str "name", str "vhost", str "durable", str "auto_delete", str "arguments", str "node",
   str "status", str "memory", str "consumers", str "consumer_utilisation",
   str "exclusive_consumer_tag", str "policy", str "message_bytes",
   str "message_bytes_persistent", str "message_bytes_ram", str "messages",
   str "messages_details", str "messages_persistent", str "messages_ram", str "messages_ready",
   str "messages_ready_details", str "messages_unacknowledged",
   str "messages_unacknowledged_details", str "message_stats", str "owner_pid_details",
   str "backing_queue_status", str "consumer_details", str "state"]

/-- The JSON tags of `BackingQueueStatus`, in declaration order. -/
def BackingQueueStatus.tags : List Bytes :=
  [str "q1", str "q2", str "q3", str "q4", str "len", str "pending_acks", str "ram_msg_count",
   str "ram_ack_count", str "persistent_count", str "avg_ingress_rate", str "avg_egress_rate",
   str "avg_ack_ingress_rate", str "avg_ack_egress_rate"]

/-- The JSON tags of `OwnerPidDetails`, in declaration order. -/
def OwnerPidDetails.tags : List Bytes := [str "name", str "peer_port", str "peer_host"]

/-- The JSON tags of `ChannelDetails`, in declaration order (the tag option `int` is not one
`encoding/json` knows, only the name counts). -/
def ChannelDetails.tags : List Bytes :=
  [str "name", str "number", str "user", str "connection_name", str "peer_port",
   str "peer_host"]

/-- The JSON tags of `Queue`, in declaration order. -/
def Queue.tags : List Bytes := [str "name", str "vhost"]

/-- The JSON tags of `ConsumerDetails`, in declaration order. -/
def ConsumerDetails.tags : List Bytes := [str "channel_details", str "queue"]

/-- The zero value of `BackingQueueStatus`. -/
def BackingQueueStatus.zero (X : Extern) : BackingQueueStatus X :=
  ⟨0, 0, 0, 0, 0, 0, 0, 0, 0, ⟨0, 0⟩, ⟨0, 0⟩, X.zeroFloat32, X.zeroFloat32⟩

/-- The zero value of `OwnerPidDetails`. -/
def OwnerPidDetails.zero (X : Extern) : OwnerPidDetails X := ⟨[], X.zeroPort, []⟩

/-- The zero value of `ChannelDetails`. -/
def ChannelDetails.zero : ChannelDetails := ⟨[], 0, [], [], 0, []⟩

/-- The zero value of `Queue`. -/
def Queue.zero : Queue := ⟨[], []⟩

/-- The zero value of `ConsumerDetails`. -/
def ConsumerDetails.zero : ConsumerDetails := ⟨none, none⟩

/-- The zero value of `QueueInfo`. -/
def QueueInfo.zero (X : Extern) : QueueInfo X :=
  { Name := [], Vhost := [], Durable := false, AutoDelete := false, Arguments := none,
    Node := [], Status := [], Memory := 0, Consumers := 0, ConsumerUtilisation := GoValue.nil,
    ExclusiveConsumerTag := GoValue.nil, Policy := [], MessagesBytes := 0,
    MessagesBytesPersistent := 0, MessagesBytesRAM := 0, Messages := 0,
    MessagesDetails := X.zeroRateDetails, MessagesPersistent := 0, MessagesRAM := 0,
    MessagesReady := 0, MessagesReadyDetails := X.zeroRateDetails, MessagesUnacknowledged := 0,
    MessagesUnacknowledgedDetails := X.zeroRateDetails, MessageStats := X.zeroMessageStats,
    OwnerPidDetails := OwnerPidDetails.zero X, BackingQueueStatus := BackingQueueStatus.zero X,
    ConsumerDetails := none, State := [] }

/-! ## Decoding JSON into the resource model -/

/-- Modelled from the spec: the Decoder of §4.3 (reached through `executeAndParseRequest`,
which is not in `queues.go`) storing a JSON value into a Go `bool`, by the rules of
`encoding/json`: a boolean is stored, null leaves the target as it is, anything else is a type
mismatch. -/
def storeBool (v : Value) (old : Bool) : Bool × Bool :=
  match v with
  | .null => (old, true)
  | .bool b => (b, true)
  | _ => (old, false)

/-- Modelled from the spec: the Decoder of §4.3 storing a JSON value into a Go `string`. -/
def storeString (v : Value) (old : Bytes) : Bytes × Bool :=
  match v with
  | .null => (old, true)
  | .string s => (s, true)
  | _ => (old, false)

/-- A decimal digit. -/
def isDigit (c : Byte) : Bool := ch '0' ≤ c && c ≤ ch '9'

/-- The number a sequence of decimal digits writes. -/
def decimalValue (ds : Bytes) : Nat := ds.foldl (fun n c => 10 * n + (c - ch '0').val) 0

/-- A JSON number literal `-?digits(.digits)?([eE][+-]?digits)?` read as sign, significand
and decimal exponent: the number is `± significand * 10 ^ exponent`. -/
def scanNumber (lit : Bytes) : Option (Bool × Nat × Int) :=
  let neg := lit.head? = some (ch '-')
  let r0 := if neg then lit.tail else lit
  let ip := r0.takeWhile isDigit
  let r1 := r0.dropWhile isDigit
  let hasFrac := r1.head? = some (ch '.')
  let fp := if hasFrac then r1.tail.takeWhile isDigit else []
  let r2 := if hasFrac then r1.tail.dropWhile isDigit else r1
  if ip = [] ∨ (hasFrac ∧ fp = []) then none
  else
    match r2 with
    | [] => some (neg, decimalValue (ip ++ fp), -(fp.length : Int))
    | c :: r3 =>
      if c = ch 'e' ∨ c = ch 'E' then
        let eneg := r3.head? = some (ch '-')
        let r4 := if eneg ∨ r3.head? = some (ch '+') then r3.tail else r3
        if r4 ≠ [] ∧ r4.all isDigit then
          some (neg, decimalValue (ip ++ fp),
            (if eneg then -(decimalValue r4 : Int) else (decimalValue r4 : Int)) - fp.length)
        else none
      else none

/-- The quotient `n / d` rounded to the nearest integer, a tie going to the even one. -/
def roundHalfEven (n d : Nat) : Nat :=
  let q := n / d
  let r := n % d
  if 2 * r < d then q else if d < 2 * r then q + 1 else if q % 2 = 0 then q else q + 1

/-- The number of binary digits of `n`, for `fuel` at least that number. -/
def bitLength : Nat → Nat → Nat
  | 0, _ => 0
  | fuel + 1, n => if n = 0 then 0 else bitLength fuel (n / 2) + 1

/-- How many times `m` can be halved, up to `fuel` times. -/
def trailingZeros : Nat → Nat → Nat
  | 0, _ => 0
  | fuel + 1, m => if m ≠ 0 ∧ m % 2 = 0 then trailingZeros fuel (m / 2) + 1 else 0

/-- The `float64` `± m * 2 ^ e` for `m` of at most 64 bits, in the form with `m` odd. -/
def Float64.normal (neg : Bool) (m : Nat) (e : Int) : Float64 :=
  if m = 0 then ⟨0, 0⟩
  else
    let z := trailingZeros 64 m
    ⟨(if neg then -1 else 1) * ((m / 2 ^ z : Nat) : Int), e + z⟩

/-- The `float64` nearest to `± n / d` (IEEE 754 binary64, round to nearest, ties to even:
53 significant bits, least exponent `-1074`); `none` when the nearest value would exceed the
largest finite `float64`. -/
def nearestFloat64 (neg : Bool) (n d : Nat) : Option Float64 :=
  if n = 0 then some ⟨0, 0⟩
  else
    let scaled (k : Int) : Nat × Nat :=
      if 0 ≤ k then (n, d * 2 ^ k.toNat) else (n * 2 ^ (-k).toNat, d)
    let l : Int := (bitLength n n : Int) - (bitLength d d : Int)
    let fl : Int := if (scaled l).2 ≤ (scaled l).1 then l else l - 1
    let p : Int := max (fl - 52) (-1074)
    let m := roundHalfEven (scaled p).1 (scaled p).2
    if 971 < p ∨ (p = 971 ∧ m = 2 ^ 53) then none else some (Float64.normal neg m p)

/-- Go `strconv.ParseFloat(lit, 64)` on a JSON number literal: the nearest `float64`, `none`
for a literal out of range (or not a number literal). -/
def parseFloat64 (lit : Bytes) : Option Float64 :=
  match scanNumber lit with
  | none => none
  | some (neg, n, e) =>
    if 0 ≤ e then nearestFloat64 neg (n * 10 ^ e.toNat) 1
    else nearestFloat64 neg n (10 ^ (-e).toNat)

/-- Modelled from the spec: the Decoder of §4.3 storing a JSON value into a Go `float64`, by
the rules of `encoding/json`: a number in range is stored as the nearest `float64`, null
leaves the target as it is, anything else is a type mismatch. -/
def storeFloat64 (v : Value) (old : Float64) : Float64 × Bool :=
  match v with
  | .null => (old, true)
  | .number lit =>
    match parseFloat64 lit with
    | some f => (f, true)
    | none => (old, false)
  | _ => (old, false)

/-- Go `m[k] = v` on the entries of a map: the entry for `k` is replaced, or added. -/
def mapSet (m : List (Bytes × GoValue)) (k : Bytes) (v : GoValue) : List (Bytes × GoValue) :=
  if m.any (fun e => e.1 = k) then m.map (fun e => if e.1 = k then (k, v) else e)
  else m ++ [(k, v)]

mutual

/-- Modelled from the spec: the Decoder of §4.3 (reached through `executeAndParseRequest`,
which is not in `queues.go`) turning a JSON value into the Go value an `interface{}` receives,
by the rules of `encoding/json`: null is nil, a boolean a `bool`, a number the nearest
`float64` (nil and a recorded mismatch when out of range), a string a `string`, an array a
`[]interface{}`, an object a `map[string]interface{}`. The flag is `false` when a mismatch
was recorded. -/
def fromJSON : Value → GoValue × Bool
  | .null => (GoValue.nil, true)
  | .bool b => (GoValue.bool b, true)
  | .number lit =>
    match parseFloat64 lit with
    | some f => (GoValue.float64 f, true)
    | none => (GoValue.nil, false)
  | .string s => (GoValue.string s, true)
  | .array xs => let r := fromJSONList xs; (GoValue.slice r.1, r.2)
  | .object ms => let r := fromJSONMembers ms []; (GoValue.map r.1, r.2)

/-- The elements of a JSON array turned into Go values, in order. -/
def fromJSONList : List Value → List GoValue × Bool
  | [] => ([], true)
  | x :: xs =>
    let r := fromJSON x
    let rs := fromJSONList xs
    (r.1 :: rs.1, r.2 && rs.2)

/-- The members of a JSON object set one after the other in a map with entries `acc`. -/
def fromJSONMembers : List (Bytes × Value) → List (Bytes × GoValue) → List (Bytes × GoValue) × Bool
  | [], acc => (acc, true)
  | (k, v) :: ms, acc =>
    let r := fromJSON v
    let rs := fromJSONMembers ms (mapSet acc k r.1)
    (rs.1, r.2 && rs.2)

end

/-- Modelled from the spec: the Decoder of §4.3 storing a JSON value into a Go `interface{}`
field, by the rules of `encoding/json`: every value fits and is stored as `fromJSON` gives it,
except a number out of range, which leaves the field as it is and records a mismatch. -/
def storeInterface (v : Value) (old : GoValue) : GoValue × Bool :=
  match v with
  | .number lit =>
    match parseFloat64 lit with
    | some f => (GoValue.float64 f, true)
    | none => (old, false)
  | _ => fromJSON v

/-- Modelled from the spec: the Decoder of §4.3 storing a JSON value into a Go
`map[string]interface{}`, by the rules of `encoding/json`: null gives the nil map, an object
sets its members one after the other in the existing map (a new one when it was nil), each
value turned into a Go value by `fromJSON`, anything else is a type mismatch. -/
def storeMap (v : Value) (old : GoMap) : GoMap × Bool :=
  match v with
  | .null => (none, true)
  | .object ms => let r := fromJSONMembers ms (old.getD []); (some r.1, r.2)
  | _ => (old, false)

/-- Modelled from the spec: the Decoder of §4.3 finding the field for a JSON key by the
declared tag mapping: the field whose tag is the key, else the first field whose tag equals
it up to case, else none (the member is ignored). The result is the field's position. -/
def findField (equalFold : Bytes → Bytes → Bool) (tags : List Bytes) (key : Bytes) :
    Option Nat :=
  if key ∈ tags then some (tags.findIdx (fun t => t = key))
  else if tags.any (fun t => equalFold t key) then some (tags.findIdx (fun t => equalFold t key))
  else none

/-- Modelled from the spec: the Decoder of §4.3 going through the members of a JSON object
in order: a member with a known key is stored in its field, others are ignored; a type
mismatch is recorded and decoding goes on. -/
def decodeMembers {S : Type} (find : Bytes → Option Nat) (setField : Nat → Value → S → S × Bool) :
    List (Bytes × Value) → S × Bool → S × Bool
  | [], acc => acc
  | (k, v) :: rest, (s, ok) =>
    match find k with
    | none => decodeMembers find setField rest (s, ok)
    | some i =>
      let r := setField i v s
      decodeMembers find setField rest (r.1, ok && r.2)

/-- Modelled from the spec: the Decoder of §4.3 storing a JSON value into a struct: an object
is decoded member by member into the existing fields (missing members keep what the field
had), null leaves the struct as it is, anything else is a type mismatch. -/
def storeStruct {S : Type} (find : Bytes → Option Nat) (setField : Nat → Value → S → S × Bool)
    (v : Value) (old : S) : S × Bool :=
  match v with
  | .null => (old, true)
  | .object ms => decodeMembers find setField ms (old, true)
  | _ => (old, false)

/-- Modelled from the spec: the Decoder of §4.3 storing a JSON value into a pointer, by the
rules of `encoding/json`: null gives nil, any other value is stored in the pointee, allocated
with the zero value if the pointer was nil. -/
def storePtr {α : Type} (store : Value → α → α × Bool) (zero : α) (v : Value) (old : Option α) :
    Option α × Bool :=
  match v with
  | .null => (none, true)
  | _ => let r := store v (old.getD zero); (some r.1, r.2)

/-- The elements of a JSON array stored one by one: element `i` goes into element `i` of the
existing slice when there is one, into a zero value otherwise. -/
def storeElems {α : Type} (store : Value → α → α × Bool) (zero : α) :
    List Value → List α → List α × Bool
  | [], _ => ([], true)
  | v :: vs, old =>
    let r := store v (old.headD zero)
    let rs := storeElems store zero vs old.tail
    (r.1 :: rs.1, r.2 && rs.2)

/-- Modelled from the spec: the Decoder of §4.3 storing a JSON value into a slice, by the rules
of `encoding/json`: null gives the nil slice, an array a non-nil slice of as many elements (an
empty array the empty non-nil slice), anything else is a type mismatch. The capacity of a
slice is not modelled. -/
def storeSlice {α : Type} (store : Value → α → α × Bool) (zero : α) (v : Value) (old : Slice α) :
    Slice α × Bool :=
  match v with
  | .null => (none, true)
  | .array vs => let r := storeElems store zero vs (old.getD []); (some r.1, r.2)
  | _ => (old, false)

/-- The field of `BackingQueueStatus` at position `i` receives `v`. -/
def BackingQueueStatus.setField (X : Extern) (i : Nat) (v : Value) (q : BackingQueueStatus X) :
    BackingQueueStatus X × Bool :=
  match i with
  | 0 => let r := X.storeInt v q.Q1; ({ q with Q1 := r.1 }, r.2)
  | 1 => let r := X.storeInt v q.Q2; ({ q with Q2 := r.1 }, r.2)
  | 2 => let r := X.storeInt v q.Q3; ({ q with Q3 := r.1 }, r.2)
  | 3 => let r := X.storeInt v q.Q4; ({ q with Q4 := r.1 }, r.2)
  | 4 => let r := X.storeInt64 v q.Length; ({ q with Length := r.1 }, r.2)
  | 5 => let r := X.storeInt64 v q.PendingAcks; ({ q with PendingAcks := r.1 }, r.2)
  | 6 => let r := X.storeInt64 v q.RAMMessageCount; ({ q with RAMMessageCount := r.1 }, r.2)
  | 7 => let r := X.storeInt64 v q.RAMAckCount; ({ q with RAMAckCount := r.1 }, r.2)
  | 8 => let r := X.storeInt64 v q.PersistentCount; ({ q with PersistentCount := r.1 }, r.2)
  | 9 => let r := storeFloat64 v q.AverageIngressRate; ({ q with AverageIngressRate := r.1 }, r.2)
  | 10 => let r := storeFloat64 v q.AverageEgressRate; ({ q with AverageEgressRate := r.1 }, r.2)
  | 11 => let r := X.storeFloat32 v q.AverageAckIngressRate; ({ q with AverageAckIngressRate := r.1 }, r.2)
  | 12 => let r := X.storeFloat32 v q.AverageAckEgressRate; ({ q with AverageAckEgressRate := r.1 }, r.2)
  | _ => (q, true)

/-- Decoding into a `BackingQueueStatus`. -/
def storeBackingQueueStatus (X : Extern) :
    Value → BackingQueueStatus X → BackingQueueStatus X × Bool :=
  storeStruct (findField X.equalFold BackingQueueStatus.tags) (BackingQueueStatus.setField X)

/-- The field of `OwnerPidDetails` at position `i` receives `v`. -/
def OwnerPidDetails.setField (X : Extern) (i : Nat) (v : Value) (q : OwnerPidDetails X) :
    OwnerPidDetails X × Bool :=
  match i with
  | 0 => let r := storeString v q.Name; ({ q with Name := r.1 }, r.2)
  | 1 => let r := X.storePort v q.PeerPort; ({ q with PeerPort := r.1 }, r.2)
  | 2 => let r := storeString v q.PeerHost; ({ q with PeerHost := r.1 }, r.2)
  | _ => (q, true)

/-- Decoding into an `OwnerPidDetails`. -/
def storeOwnerPidDetails (X : Extern) : Value → OwnerPidDetails X → OwnerPidDetails X × Bool :=
  storeStruct (findField X.equalFold OwnerPidDetails.tags) (OwnerPidDetails.setField X)

section Consumers

variable (storeInt : Value → Int → Int × Bool) (equalFold : Bytes → Bytes → Bool)

/-- The field of `ChannelDetails` at position `i` receives `v`. -/
def ChannelDetails.setField (i : Nat) (v : Value) (q : ChannelDetails) : ChannelDetails × Bool :=
  match i with
  | 0 => let r := storeString v q.Name; ({ q with Name := r.1 }, r.2)
  | 1 => let r := storeInt v q.Number; ({ q with Number := r.1 }, r.2)
  | 2 => let r := storeString v q.User; ({ q with User := r.1 }, r.2)
  | 3 => let r := storeString v q.ConnectionName; ({ q with ConnectionName := r.1 }, r.2)
  | 4 => let r := storeInt v q.PeerPort; ({ q with PeerPort := r.1 }, r.2)
  | 5 => let r := storeString v q.PeerHost; ({ q with PeerHost := r.1 }, r.2)
  | _ => (q, true)

/-- The field of `Queue` at position `i` receives `v`. -/
def Queue.setField (i : Nat) (v : Value) (q : Queue) : Queue × Bool :=
  match i with
  | 0 => let r := storeString v q.Name; ({ q with Name := r.1 }, r.2)
  | 1 => let r := storeString v q.Vhost; ({ q with Vhost := r.1 }, r.2)
  | _ => (q, true)

/-- The field of `ConsumerDetails` at position `i` receives `v`. -/
def ConsumerDetails.setField (i : Nat) (v : Value) (q : ConsumerDetails) :
    ConsumerDetails × Bool :=
  match i with
  | 0 =>
    let r := storePtr (storeStruct (findField equalFold ChannelDetails.tags)
      (ChannelDetails.setField storeInt)) ChannelDetails.zero v q.ChannleDetails
    ({ q with ChannleDetails := r.1 }, r.2)
  | 1 =>
    let r := storePtr (storeStruct (findField equalFold Queue.tags) Queue.setField)
      Queue.zero v q.Queue
    ({ q with Queue := r.1 }, r.2)
  | _ => (q, true)

/-- Decoding into a `ConsumerDetails`. -/
def storeConsumerDetailsWith : Value → ConsumerDetails → ConsumerDetails × Bool :=
  storeStruct (findField equalFold ConsumerDetails.tags) (ConsumerDetails.setField storeInt equalFold)

end Consumers

/-- The field of `QueueInfo` at position `i` (in declaration order) receives `v`. -/
def QueueInfo.setField (X : Extern) (i : Nat) (v : Value) (q : QueueInfo X) :
    QueueInfo X × Bool :=
  let storeConsumerDetails := storeConsumerDetailsWith X.storeInt X.equalFold
  match i with
  | 0 => let r := storeString v q.Name; ({ q with Name := r.1 }, r.2)
  | 1 => let r := storeString v q.Vhost; ({ q with Vhost := r.1 }, r.2)
  | 2 => let r := storeBool v q.Durable; ({ q with Durable := r.1 }, r.2)
  | 3 => let r := storeBool v q.AutoDelete; ({ q with AutoDelete := r.1 }, r.2)
  | 4 => let r := storeMap v q.Arguments; ({ q with Arguments := r.1 }, r.2)
  | 5 => let r := storeString v q.Node; ({ q with Node := r.1 }, r.2)
  | 6 => let r := storeString v q.Status; ({ q with Status := r.1 }, r.2)
  | 7 => let r := X.storeInt64 v q.Memory; ({ q with Memory := r.1 }, r.2)
  | 8 => let r := X.storeInt v q.Consumers; ({ q with Consumers := r.1 }, r.2)
  | 9 => let r := storeInterface v q.ConsumerUtilisation; ({ q with ConsumerUtilisation := r.1 }, r.2)
  | 10 => let r := storeInterface v q.ExclusiveConsumerTag; ({ q with ExclusiveConsumerTag := r.1 }, r.2)
  | 11 => let r := storeString v q.Policy; ({ q with Policy := r.1 }, r.2)
  | 12 => let r := X.storeInt64 v q.MessagesBytes; ({ q with MessagesBytes := r.1 }, r.2)
  | 13 => let r := X.storeInt64 v q.MessagesBytesPersistent; ({ q with MessagesBytesPersistent := r.1 }, r.2)
  | 14 => let r := X.storeInt64 v q.MessagesBytesRAM; ({ q with MessagesBytesRAM := r.1 }, r.2)
  | 15 => let r := X.storeInt v q.Messages; ({ q with Messages := r.1 }, r.2)
  | 16 => let r := X.storeRateDetails v q.MessagesDetails; ({ q with MessagesDetails := r.1 }, r.2)
  | 17 => let r := X.storeInt v q.MessagesPersistent; ({ q with MessagesPersistent := r.1 }, r.2)
  | 18 => let r := X.storeInt v q.MessagesRAM; ({ q with MessagesRAM := r.1 }, r.2)
  | 19 => let r := X.storeInt v q.MessagesReady; ({ q with MessagesReady := r.1 }, r.2)
  | 20 => let r := X.storeRateDetails v q.MessagesReadyDetails; ({ q with MessagesReadyDetails := r.1 }, r.2)
  | 21 => let r := X.storeInt v q.MessagesUnacknowledged; ({ q with MessagesUnacknowledged := r.1 }, r.2)
  | 22 => let r := X.storeRateDetails v q.MessagesUnacknowledgedDetails; ({ q with MessagesUnacknowledgedDetails := r.1 }, r.2)
  | 23 => let r := X.storeMessageStats v q.MessageStats; ({ q with MessageStats := r.1 }, r.2)
  | 24 => let r := storeOwnerPidDetails X v q.OwnerPidDetails; ({ q with OwnerPidDetails := r.1 }, r.2)
  | 25 => let r := storeBackingQueueStatus X v q.BackingQueueStatus; ({ q with BackingQueueStatus := r.1 }, r.2)
  | 26 => let r := storeSlice (storePtr storeConsumerDetails ConsumerDetails.zero) none v q.ConsumerDetails; ({ q with ConsumerDetails := r.1 }, r.2)
  | 27 => let r := storeString v q.State; ({ q with State := r.1 }, r.2)
  | _ => (q, true)

/-- Decoding a JSON value into a `QueueInfo` by the declared tag mapping. -/
def storeQueueInfo (X : Extern) : Value → QueueInfo X → QueueInfo X × Bool :=
  storeStruct (findField X.equalFold QueueInfo.tags) (QueueInfo.setField X)

/-- Decoding into the target of the list operations, a `[]QueueInfo`. -/
def storeQueueInfos (X : Extern) : Value → Slice (QueueInfo X) → Slice (QueueInfo X) × Bool :=
  storeSlice (storeQueueInfo X) (QueueInfo.zero X)

/-- Decoding into the target of `GetQueue`, a `*DetailedQueueInfo`. -/
def storeDetailedQueueInfo (X : Extern) :
    Value → Option (DetailedQueueInfo X) → Option (DetailedQueueInfo X) × Bool :=
  storePtr (storeQueueInfo X) (QueueInfo.zero X)

/-! ## The read operations -/

/-- The client helpers the read operations call and `queues.go` does not define.
`executeAndParseRequest(c, req, &rec)` writes into its target and returns an error: it is
taken, for each of the two target types, as a function from the target's content before the
call to its content after the call and the error (`none` is `nil`). -/
structure ReadHelpers (X : Extern) (Client Request Error : Type) where
  newGETRequest : Client → Bytes → Except Error Request
  executeAndParseList :
    Client → Request → Slice (QueueInfo X) → Slice (QueueInfo X) × Option Error
  executeAndParseOne :
    Client → Request → Option (DetailedQueueInfo X) → Option (DetailedQueueInfo X) × Option Error

section ReadOperations

variable {X : Extern} {Client Request Error : Type}

/-- Go `func (c *Client) ListQueues() (rec []QueueInfo, err error)`. The named result `rec`
starts as the nil slice; `[]QueueInfo{}` is the empty non-nil slice. -/
def ListQueues (h : ReadHelpers X Client Request Error) (c : Client) :
    Slice (QueueInfo X) × Option Error :=
  match h.newGETRequest c listQueuesPath with
  | .error err => (some [], some err)
  | .ok req =>
    match h.executeAndParseList c req none with
    | (_, some err) => (some [], some err)
    | (rec, none) => (rec, none)

/-- Go `func (c *Client) ListQueuesIn(vhost string) (rec []QueueInfo, err error)`. -/
def ListQueuesIn (h : ReadHelpers X Client Request Error) (c : Client) (vhost : Bytes) :
    Slice (QueueInfo X) × Option Error :=
  match h.newGETRequest c (listQueuesInPath vhost) with
  | .error err => (some [], some err)
  | .ok req =>
    match h.executeAndParseList c req none with
    | (_, some err) => (some [], some err)
    | (rec, none) => (rec, none)

/-- Go `func (c *Client) GetQueue(vhost, queue string) (rec *DetailedQueueInfo, err error)`. -/
def GetQueue (h : ReadHelpers X Client Request Error) (c : Client) (vhost queue : Bytes) :
    Option (DetailedQueueInfo X) × Option Error :=
  match h.newGETRequest c (getQueuePath vhost queue) with
  | .error err => (none, some err)
  | .ok req =>
    match h.executeAndParseOne c req none with
    | (_, some err) => (none, some err)
    | (rec, none) => (rec, none)

end ReadOperations

/-! ## The request/response engine, from the specification -/

/-- The error taxonomy of §7. -/
inductive ApiError where
  | ConstructionError
  | TransportError
  | HTTPError (StatusCode : Nat) (Status : Bytes) (Body : Bytes)
  | DecodeError
  deriving DecidableEq

/-- The `ClientConfig` of §3: base endpoint and credentials. -/
structure ClientConfig where
  Endpoint : Bytes
  Username : Bytes
  Password : Bytes
  deriving DecidableEq

/-- A built HTTP request (§4.1): method, URL, Basic credentials, content type, body. -/
structure HTTPRequest where
  Method : Bytes
  URL : Bytes
  Username : Bytes
  Password : Bytes
  ContentType : Option Bytes
  Body : Option Bytes
  deriving DecidableEq

/-- An HTTP response: status code, reason phrase, body. -/
structure HTTPResponse where
  StatusCode : Nat
  Status : Bytes
  Body : Bytes
  deriving DecidableEq

/-- The external collaborators of §1: URL validation, the HTTP transport (`none`: the exchange
could not complete) and the JSON reader (`none`: the text is not valid JSON). -/
structure Wire where
  validURL : Bytes → Bool
  transport : HTTPRequest → Option HTTPResponse
  parseJSON : Bytes → Option Value

/-- Modelled from the spec: the request the Request Builder of §4.1 and §6 composes
(`newRequestWithBody` is not in `queues.go`): the URL joins the base endpoint, the API root
and the resource path; the credentials are the client's; the content type is JSON when a body
is present. -/
def Spec.request (c : ClientConfig) (method path : Bytes) (body : Option Bytes) : HTTPRequest :=
  { Method := method, URL := c.Endpoint ++ str "/api/" ++ path
    Username := c.Username, Password := c.Password
    ContentType := if body.isSome then some (str "application/json") else none
    Body := body }

/-- Modelled from the spec: the Request Builder of §4.1 (`newRequestWithBody`, not in
`queues.go`): the composed request, or a `ConstructionError` when its URL is invalid. -/
def Spec.newRequestWithBody (w : Wire) (c : ClientConfig) (method path : Bytes)
    (body : Option Bytes) : Except ApiError HTTPRequest :=
  let req := Spec.request c method path body
  if w.validURL req.URL then .ok req else .error .ConstructionError

/-- Modelled from the spec: the Request Builder of §4.1 for a GET (`newGETRequest`, not in
`queues.go`): a request without body. -/
def Spec.newGETRequest (w : Wire) (c : ClientConfig) (path : Bytes) :
    Except ApiError HTTPRequest :=
  Spec.newRequestWithBody w c (str "GET") path none

/-- Modelled from the spec: the Executor of §4.2 (`executeRequest`, not in `queues.go`): sends
the request, fails with a `TransportError` if the exchange cannot complete, and otherwise
surfaces the response unconditionally, without inspecting the status code. -/
def Spec.executeRequest (w : Wire) (_c : ClientConfig) (req : HTTPRequest) :
    Except ApiError HTTPResponse :=
  match w.transport req with
  | none => .error .TransportError
  | some res => .ok res

/-- The success range of §4.3: a 2xx status. -/
def isSuccess (code : Nat) : Bool := 200 ≤ code && code < 300

/-- Modelled from the spec: the Decoder of §4.3 after the Executor (`executeAndParseRequest`,
not in `queues.go`): a status outside 2xx gives an `HTTPError` with status code, reason and
raw body; a 2xx body is deserialised into the target, and a body that is not JSON or does not
fit the target gives a `DecodeError`. -/
def Spec.executeAndParseRequest {T : Type} (w : Wire) (store : Value → T → T × Bool)
    (c : ClientConfig) (req : HTTPRequest) (rec : T) : T × Option ApiError :=
  match Spec.executeRequest w c req with
  | .error e => (rec, some e)
  | .ok res =>
    if isSuccess res.StatusCode then
      match w.parseJSON res.Body with
      | none => (rec, some .DecodeError)
      | some v =>
        let r := store v rec
        (r.1, if r.2 then none else some .DecodeError)
    else (rec, some (.HTTPError res.StatusCode res.Status res.Body))

/-- The write helpers of the specification's engine. -/
def Spec.helpers (w : Wire) (enc : Encoder ApiError) :
    Helpers ClientConfig HTTPRequest HTTPResponse ApiError :=
  { newRequestWithBody := Spec.newRequestWithBody w
    executeRequest := Spec.executeRequest w
    enc := enc }

/-- The read helpers of the specification's engine. -/
def Spec.readHelpers (X : Extern) (w : Wire) : ReadHelpers X ClientConfig HTTPRequest ApiError :=
  { newGETRequest := Spec.newGETRequest w
    executeAndParseList := Spec.executeAndParseRequest w (storeQueueInfos X)
    executeAndParseOne := Spec.executeAndParseRequest w (storeDetailedQueueInfo X) }

/-! ## What the operations are compared with -/

/-- Build a request from a method, a path and a body with the client's builder and execute
it: the response with a nil error, or no response with the first error. -/
def buildAndExecute {Client Request Response Error : Type}
    (h : Helpers Client Request Response Error) (c : Client) (method path : Bytes)
    (body : Option Bytes) : Option Response × Option Error :=
  match h.newRequestWithBody c method path body with
  | .error err => (none, some err)
  | .ok req =>
    match h.executeRequest c req with
    | .error err => (none, some err)
    | .ok res => (some res, none)

/-- The subset of a queue snapshot that is the input shape of a declaration. -/
def QueueInfo.settings {X : Extern} (q : QueueInfo X) : QueueSettings :=
  ⟨q.Durable, q.AutoDelete, q.Arguments⟩

/-- The decimal literal of an integer, as `encoding/json` writes a value of an integer type. -/
def intLit (n : Int) : Bytes :=
  (if n < 0 then [ch '-'] else []) ++ (Nat.toDigits 10 n.natAbs).map (fun c => ch c)

mutual

/-- The JSON value that carries a Go value: nil is null, a `bool`, a `string`, a slice and a
map are the boolean, string, array and object with the same content, an integer is the number
with its decimal literal, and a `float64` the number with the literal `fmt` writes for it
(`encoding/json`'s float formatting, a parameter). Members are in the order of the map's
entries: the order of members means nothing to the decoder. -/
def jsonOf (fmt : Float64 → Bytes) : GoValue → Value
  | .nil => Value.null
  | .bool b => Value.bool b
  | .int n => Value.number (intLit n)
  | .float64 f => Value.number (fmt f)
  | .string s => Value.string s
  | .slice xs => Value.array (jsonOfList fmt xs)
  | .map es => Value.object (jsonOfEntries fmt es)

/-- The JSON values carrying the elements of a slice. -/
def jsonOfList (fmt : Float64 → Bytes) : List GoValue → List Value
  | [] => []
  | x :: xs => jsonOf fmt x :: jsonOfList fmt xs

/-- The JSON members carrying the entries of a map. -/
def jsonOfEntries (fmt : Float64 → Bytes) : List (Bytes × GoValue) → List (Bytes × Value)
  | [] => []
  | (k, v) :: es => (k, jsonOf fmt v) :: jsonOfEntries fmt es

end

mutual

/-- A Go value of the types the decoder produces: nil, `bool`, `string`, a `float64` whose
written literal reads back as the same `float64`, a slice of such values, or a map of such
values with pairwise distinct keys; no value of an integer type. -/
def decodable (fmt : Float64 → Bytes) : GoValue → Bool
  | .nil => true
  | .bool _ => true
  | .int _ => false
  | .float64 f => parseFloat64 (fmt f) = some f
  | .string _ => true
  | .slice xs => decodableList fmt xs
  | .map es => decodableEntries fmt es && decide ((keysOf es).Nodup)

/-- Every element of the slice is decodable. -/
def decodableList (fmt : Float64 → Bytes) : List GoValue → Bool
  | [] => true
  | x :: xs => decodable fmt x && decodableList fmt xs

/-- Every value of the entries is decodable. -/
def decodableEntries (fmt : Float64 → Bytes) : List (Bytes × GoValue) → Bool
  | [] => true
  | (_, v) :: es => decodable fmt v && decodableEntries fmt es

end

/-! ## Concrete helpers used to observe the operations -/

/-- A float formatting that writes a `float64` that is an integer as its decimal literal (as
`encoding/json` does for such a value below `1e21`) and writes nothing for the others. -/
def formatIntegral (f : Float64) : Bytes :=
  match f.toInt with
  | some n => intLit n
  | none => []


/-- An instance of `Extern` in which the absent types hold nothing and numbers are kept only
when the JSON value is a number made of decimal digits. -/
def Extern.simple : Extern :=
  { Port := Unit, RateDetails := Unit, MessageStats := Unit, Float32 := Unit
    zeroPort := (), zeroRateDetails := (), zeroMessageStats := ()
    zeroFloat32 := ()
    storePort := fun _ old => (old, true)
    storeRateDetails := fun _ old => (old, true)
    storeMessageStats := fun _ old => (old, true)
    storeFloat32 := fun _ old => (old, true)
    storeInt := fun v old =>
      match v with
      | .null => (old, true)
      | .number lit =>
        if lit ≠ [] ∧ lit.all (fun c => ch '0' ≤ c ∧ c ≤ ch '9') then
          (lit.foldl (fun n c => 10 * n + ((c - ch '0').val : Int)) 0, true)
        else (old, false)
      | _ => (old, false)
    storeInt64 := fun v old =>
      match v with
      | .null => (old, true)
      | .number lit =>
        if lit ≠ [] ∧ lit.all (fun c => ch '0' ≤ c ∧ c ≤ ch '9') then
          (lit.foldl (fun n c => 10 * n + ((c - ch '0').val : Int)) 0, true)
        else (old, false)
      | _ => (old, false)
    equalFold := fun a b => a = b }

/-- An encoder of dynamic values that writes nil, booleans and integers, fails with
`unsupported` on the other values, and quotes a key by putting it between double quotes. -/
def Encoder.simple {Error : Type} (unsupported : Error) : Encoder Error :=
  { encodeString := fun k => str "\"" ++ k ++ str "\""
    encodeValue := fun v =>
      match v with
      | .nil => .ok (str "null")
      | .bool b => .ok (encodeBool b)
      | .int n => .ok (intLit n)
      | _ => .error unsupported }

/-- A client configuration for a local broker. -/
def localClient : ClientConfig :=
  { Endpoint := str "http://127.0.0.1:15672", Username := str "guest", Password := str "guest" }

/-- A JSON reader that knows the two texts `null` and `[]` and rejects every other text. -/
def parseNullOrEmptyArray (body : Bytes) : Option Value :=
  if body = str "null" then some Value.null
  else if body = str "[]" then some (Value.array [])
  else none

/-- A broker that answers every request with `404 Not Found`. -/
def wireNotFound : Wire :=
  { validURL := fun _ => true
    transport := fun _ => some ⟨404, str "Not Found", str "Object Not Found"⟩
    parseJSON := parseNullOrEmptyArray }

/-- A broker that answers every request with `200 OK` and the given body. -/
def wireOK (body : Bytes) : Wire :=
  { validURL := fun _ => true
    transport := fun _ => some ⟨200, str "OK", body⟩
    parseJSON := parseNullOrEmptyArray }

/-- A broker that answers `200 OK` with a body read as an array of a queue object followed
by a number, which a `QueueInfo` cannot take. -/
def wireIllTyped : Wire :=
  { validURL := fun _ => true
    transport := fun _ => some ⟨200, str "OK", str "[\x7b\"name\":\"q\"\x7d,5]"⟩
    parseJSON := fun _ =>
      some (Value.array [Value.object [(str "name", Value.string (str "q"))],
        Value.number (str "5")]) }

/-- Read helpers that build no request and fail with the requested path as the error value:
the error an operation returns with them is the path it asked for. -/
def pathTracer (X : Extern) : ReadHelpers X Unit Unit Bytes :=
  { newGETRequest := fun _ path => .error path
    executeAndParseList := fun _ _ rec => (rec, none)
    executeAndParseOne := fun _ _ rec => (rec, none) }

/-- Write helpers whose request is the triple (method, path, body) it was built from and
whose response is that request: the response an operation returns with them is the request
it built. -/
def requestTracer : Helpers Unit (Bytes × Bytes × Option Bytes) (Bytes × Bytes × Option Bytes) Unit :=
  { newRequestWithBody := fun _ method path body => .ok (method, path, body)
    executeRequest := fun _ req => .ok req
    enc := Encoder.simple () }

/-! ## Properties of escaping -/

set_option maxRecDepth 100000 in
theorem escapeByte_of_not_shouldEscape (mode : Encoding) (c : Byte)
    (h : shouldEscape c mode = false) : escapeByte mode c = [c] := by
  revert c
  cases mode <;> decide

theorem escape_eq_flatMap (s : Bytes) (mode : Encoding) :
    escape s mode = s.flatMap (escapeByte mode) := by
  unfold escape
  simp only
  split
  · rename_i h
    have hall : ∀ c ∈ s, shouldEscape c mode = false := by
      intro c hc
      by_contra hne
      have hse : shouldEscape c mode = true := by simpa using hne
      by_cases hsp : (c = ch ' ' ∧ mode = .encodeQueryComponent)
      · have := List.countP_eq_zero.mp h.1 c hc
        simp [hse, hsp.1, hsp.2] at this
        rw [hsp.1, hsp.2, this] at hse
        cases hse
      · have := List.countP_eq_zero.mp h.2 c hc
        simp [hse] at this
        exact hsp this
    clear h
    induction s with
    | nil => rfl
    | cons c t ih =>
      rw [List.flatMap_cons, escapeByte_of_not_shouldEscape mode c (hall c (List.mem_cons_self _ _))]
      rw [← ih (fun d hd => hall d (List.mem_cons_of_mem _ hd))]
      rfl
  · rfl

theorem QueryEscape_nil : QueryEscape [] = [] := by decide

theorem QueryEscape_cons (c : Byte) (s : Bytes) :
    QueryEscape (c :: s) = escapeByte .encodeQueryComponent c ++ QueryEscape s := by
  simp [QueryEscape, escape_eq_flatMap]

set_option maxRecDepth 100000 in
theorem unhex_upperhex (c : Byte) :
    (ishex (upperhex.getD (c >>> 4).val 0) && ishex (upperhex.getD (c &&& 15).val 0)) = true ∧
    (unhex (upperhex.getD (c >>> 4).val 0) <<< 4 ||| unhex (upperhex.getD (c &&& 15).val 0)) = c := by
  revert c
  decide

set_option maxRecDepth 100000 in
theorem not_shouldEscape_query (c : Byte) (h : shouldEscape c .encodeQueryComponent = false) :
    c ≠ ch '%' ∧ c ≠ ch '+' ∧ c ≠ ch ' ' := by
  revert c
  decide

theorem unescape_cons (mode : Encoding) (c : Byte) (rest : Bytes) :
    unescape mode (c :: rest) =
      if c = ch '%' then
        (match rest with
        | a :: b :: rest2 =>
          if ishex a && ishex b then
            (unescape mode rest2).map (fun t => (unhex a <<< 4 ||| unhex b) :: t)
          else none
        | _ => none)
      else if c = ch '+' then
        (unescape mode rest).map
          (fun t => (if mode = .encodeQueryComponent then ch ' ' else ch '+') :: t)
      else
        (unescape mode rest).map (fun t => c :: t) := by
  cases rest with
  | nil => rfl
  | cons a r => cases r <;> rfl

theorem unescape_pct (mode : Encoding) (a b : Byte) (rest : Bytes) :
    unescape mode (ch '%' :: a :: b :: rest)
      = if (ishex a && ishex b) = true then
          (unescape mode rest).map (fun t => (unhex a <<< 4 ||| unhex b) :: t)
        else none := by
  rw [unescape_cons, if_pos rfl]

theorem unescape_plus (mode : Encoding) (rest : Bytes) :
    unescape mode (ch '+' :: rest)
      = (unescape mode rest).map
          (fun t => (if mode = .encodeQueryComponent then ch ' ' else ch '+') :: t) := by
  rw [unescape_cons, if_neg (by decide), if_pos rfl]

theorem unescape_other (mode : Encoding) (c : Byte) (rest : Bytes)
    (h1 : c ≠ ch '%') (h2 : c ≠ ch '+') :
    unescape mode (c :: rest) = (unescape mode rest).map (fun t => c :: t) := by
  rw [unescape_cons, if_neg h1, if_neg h2]

theorem unescape_query_escapeByte (c : Byte) (rest : Bytes) :
    unescape .encodeQueryComponent (escapeByte .encodeQueryComponent c ++ rest)
      = (unescape .encodeQueryComponent rest).map (fun t => c :: t) := by
  unfold escapeByte
  by_cases h1 : c = ch ' '
  · rw [if_pos ⟨h1, rfl⟩, List.singleton_append, unescape_plus, if_pos rfl, h1]
  · rw [if_neg (fun h => h1 h.1)]
    by_cases h2 : shouldEscape c .encodeQueryComponent = true
    · have hx := unhex_upperhex c
      rw [if_pos h2, List.cons_append, List.cons_append, List.cons_append, List.nil_append,
        unescape_pct, if_pos hx.1, hx.2]
    · have h2f : shouldEscape c .encodeQueryComponent = false := by simpa using h2
      have hn := not_shouldEscape_query c h2f
      rw [if_neg h2, List.singleton_append, unescape_other _ _ _ hn.1 hn.2.1]

theorem QueryUnescape_QueryEscape (s : Bytes) : QueryUnescape (QueryEscape s) = some s := by
  induction s with
  | nil => decide
  | cons c t ih =>
    rw [QueryEscape_cons]
    unfold QueryUnescape at ih ⊢
    rw [unescape_query_escapeByte, ih]
    rfl

theorem QueryEscape_injective : Function.Injective QueryEscape := by
  intro a b h
  have := congrArg QueryUnescape h
  rw [QueryUnescape_QueryEscape, QueryUnescape_QueryEscape] at this
  exact Option.some.inj this

set_option maxRecDepth 100000 in
theorem slash_not_mem_escapeByte (c : Byte) : ch '/' ∉ escapeByte .encodeQueryComponent c := by
  revert c
  decide

theorem slash_not_mem_QueryEscape (s : Bytes) : ch '/' ∉ QueryEscape s := by
  induction s with
  | nil => decide
  | cons c t ih =>
    rw [QueryEscape_cons, List.mem_append]
    rintro (h | h)
    · exact slash_not_mem_escapeByte c h
    · exact ih h

theorem append_cons_inj_of_not_mem {α : Type} {x : α} :
    ∀ {a a2 b b2 : List α}, x ∉ a → x ∉ a2 → a ++ x :: b = a2 ++ x :: b2 → a = a2 ∧ b = b2
  | [], [], _, _, _, _, h => ⟨rfl, by simpa using h⟩
  | [], y :: a2, _, _, _, h2, h => by
    simp only [List.nil_append, List.cons_append, List.cons.injEq] at h
    exact absurd (h.1 ▸ List.mem_cons_self _ _) h2
  | y :: a, [], _, _, h1, _, h => by
    simp only [List.nil_append, List.cons_append, List.cons.injEq] at h
    exact absurd (h.1 ▸ List.mem_cons_self _ _) h1
  | y :: a, z :: a2, _, _, h1, h2, h => by
    simp only [List.cons_append, List.cons.injEq] at h
    obtain ⟨hy, ht⟩ := h
    have := append_cons_inj_of_not_mem (fun m => h1 (List.mem_cons_of_mem _ m))
      (fun m => h2 (List.mem_cons_of_mem _ m)) ht
    exact ⟨by rw [hy, this.1], this.2⟩


theorem unescape_path_escapeByte (c : Byte) (rest : Bytes) :
    unescape .encodePathSegment (escapeByte .encodeQueryComponent c ++ rest)
      = (unescape .encodePathSegment rest).map
          (fun t => (if c = ch ' ' then ch '+' else c) :: t) := by
  unfold escapeByte
  by_cases h1 : c = ch ' '
  · rw [if_pos ⟨h1, rfl⟩, List.singleton_append, unescape_plus, if_neg (by decide), if_pos h1]
  · rw [if_neg (fun h => h1 h.1), if_neg h1]
    by_cases h2 : shouldEscape c .encodeQueryComponent = true
    · have hx := unhex_upperhex c
      rw [if_pos h2, List.cons_append, List.cons_append, List.cons_append, List.nil_append,
        unescape_pct, if_pos hx.1, hx.2]
    · have h2f : shouldEscape c .encodeQueryComponent = false := by simpa using h2
      have hn := not_shouldEscape_query c h2f
      rw [if_neg h2, List.singleton_append, unescape_other _ _ _ hn.1 hn.2.1]

/-- Decoding a query-escaped name as a path segment gives the name with every space turned
into a plus sign. -/
theorem PathUnescape_QueryEscape (s : Bytes) :
    PathUnescape (QueryEscape s) = some (s.map (fun c => if c = ch ' ' then ch '+' else c)) := by
  induction s with
  | nil => decide
  | cons c t ih =>
    rw [QueryEscape_cons]
    unfold PathUnescape at ih ⊢
    rw [unescape_path_escapeByte, ih]
    rfl

/-- On names without a space the escaped segment decodes, as a path segment, to the name. -/
theorem PathUnescape_QueryEscape_of_no_space (s : Bytes) (h : ch ' ' ∉ s) :
    PathUnescape (QueryEscape s) = some s := by
  rw [PathUnescape_QueryEscape]
  congr 1
  induction s with
  | nil => rfl
  | cons c t ih =>
    have hc : c ≠ ch ' ' := fun e => h (e ▸ List.mem_cons_self _ _)
    rw [List.map_cons, if_neg hc, ih (fun m => h (List.mem_cons_of_mem _ m))]

theorem count_slash_QueryEscape (s : Bytes) : (QueryEscape s).count (ch '/') = 0 :=
  List.count_eq_zero.mpr (slash_not_mem_QueryEscape s)

theorem segments_injective {v1 n1 v2 n2 : Bytes}
    (h : str "queues/" ++ QueryEscape v1 ++ str "/" ++ QueryEscape n1
       = str "queues/" ++ QueryEscape v2 ++ str "/" ++ QueryEscape n2) :
    v1 = v2 ∧ n1 = n2 := by
  have hs : str "/" = [ch '/'] := by decide
  rw [hs, List.append_assoc, List.append_assoc, List.append_assoc, List.append_assoc] at h
  have h2 := List.append_cancel_left h
  rw [List.singleton_append, List.singleton_append] at h2
  have := append_cons_inj_of_not_mem (slash_not_mem_QueryEscape v1)
    (slash_not_mem_QueryEscape v2) h2
  exact ⟨QueryEscape_injective this.1, QueryEscape_injective this.2⟩

theorem count_slash_deleteQueuePath (v n : Bytes) :
    (deleteQueuePath v n).count (ch '/') = 2 := by
  unfold deleteQueuePath
  rw [List.count_append, List.count_append, List.count_append, count_slash_QueryEscape,
    count_slash_QueryEscape]
  decide

theorem count_slash_purgeQueuePath (v n : Bytes) :
    (purgeQueuePath v n).count (ch '/') = 3 := by
  unfold purgeQueuePath
  rw [List.count_append, List.count_append, List.count_append, List.count_append,
    count_slash_QueryEscape, count_slash_QueryEscape]
  decide

/-! ## The claims on request paths -/

/-- C2 (evaluated where it fails): for vhost `/` and queue name `a/b`, `GetQueue` requests the
path `queues/%2F/a/b`, with the queue name unescaped, while `DeleteQueue` and `DeclareQueue`
request `queues/%2F/a%2Fb`: the three operations do not build the same path. -/
theorem getQueue_path_differs_from_deleteQueue_path :
    (GetQueue (pathTracer Extern.simple) () (str "/") (str "a/b")).2
        = some (str "queues/%2F/a/b") ∧
    (DeleteQueue requestTracer () (str "/") (str "a/b")).1
        = some (str "DELETE", str "queues/%2F/a%2Fb", none) ∧
    (DeclareQueue requestTracer () (str "/") (str "a/b") ⟨false, false, none⟩).1.map (·.2.1)
        = some (str "queues/%2F/a%2Fb") ∧
    getQueuePath (str "/") (str "a/b") ≠ deleteQueuePath (str "/") (str "a/b") := by
  refine ⟨by decide, by decide, by decide, by decide⟩

/-- C3 (evaluated where it fails): the segment the queue operations embed for the name `a b`
is `a+b`, and decoding `a+b` as a URL path segment, where `+` is a literal plus, gives `a+b`
and not the original name `a b`. -/
theorem escaped_segment_with_space_does_not_round_trip :
    QueryEscape (str "a b") = str "a+b" ∧
    (ListQueuesIn (pathTracer Extern.simple) () (str "a b")).2 = some (str "queues/a+b") ∧
    PathUnescape (QueryEscape (str "a b")) = some (str "a+b") ∧
    PathUnescape (QueryEscape (str "a b")) ≠ some (str "a b") := by
  refine ⟨by decide, by decide, by decide, by decide⟩

/-- C4: `ListQueuesIn` called with the default vhost `/` requests the path `queues/%2F`; the
vhost segment `%2F` is neither empty nor the unescaped `/`, and the path, which is neither
`queues/` nor `queues//`, has a single `/`, hence exactly two segments. -/
theorem listQueuesIn_default_vhost_path :
    (∀ (X : Extern) (Client Request Error : Type) (h : ReadHelpers X Client Request Error)
        (c : Client),
      ListQueuesIn h c (str "/") =
        match h.newGETRequest c (str "queues/%2F") with
        | .error err => (some [], some err)
        | .ok req =>
          match h.executeAndParseList c req none with
          | (_, some err) => (some [], some err)
          | (rec, none) => (rec, none)) ∧
    listQueuesInPath (str "/") = str "queues/%2F" ∧
    QueryEscape (str "/") = str "%2F" ∧
    QueryEscape (str "/") ≠ [] ∧
    QueryEscape (str "/") ≠ str "/" ∧
    listQueuesInPath (str "/") ≠ str "queues/" ∧
    listQueuesInPath (str "/") ≠ str "queues//" ∧
    (listQueuesInPath (str "/")).count (ch '/') = 1 := by
  refine ⟨?_, by decide, by decide, by decide, by decide, by decide, by decide, by decide⟩
  intro X Client Request Error h c
  have hp : listQueuesInPath (str "/") = str "queues/%2F" := by decide
  unfold ListQueuesIn
  rw [hp]

/-- C10: the path of `DeclareQueue` and `DeleteQueue` determines the vhost and the queue name:
equal paths come from equal pairs. An escaped segment never contains `/`, the escaping function
is injective, every such path has exactly two `/` (three segments), and a `PurgeQueue` path
is never a `DeleteQueue` path. -/
theorem write_paths_injective (v1 n1 v2 n2 : Bytes) :
    (declareQueuePath v1 n1 = declareQueuePath v2 n2 → v1 = v2 ∧ n1 = n2) ∧
    (deleteQueuePath v1 n1 = deleteQueuePath v2 n2 → v1 = v2 ∧ n1 = n2) ∧
    (QueryEscape v1 = QueryEscape v2 → v1 = v2) ∧
    ch '/' ∉ QueryEscape v1 ∧ ch '/' ∉ QueryEscape n1 ∧
    (declareQueuePath v1 n1).count (ch '/') = 2 ∧
    (deleteQueuePath v1 n1).count (ch '/') = 2 ∧
    purgeQueuePath v1 n1 ≠ deleteQueuePath v2 n2 := by
  refine ⟨fun h => segments_injective h, fun h => segments_injective h,
    fun h => QueryEscape_injective h, slash_not_mem_QueryEscape v1,
    slash_not_mem_QueryEscape n1, count_slash_deleteQueuePath v1 n1,
    count_slash_deleteQueuePath v1 n1, ?_⟩
  intro h
  have h3 := count_slash_purgeQueuePath v1 n1
  rw [h, count_slash_deleteQueuePath] at h3
  cases h3

/-- C10 at the pairs (`/`, `a b`) and (`/`, `a b`). -/
theorem write_paths_injective_witness :
    declareQueuePath (str "/") (str "a b") = declareQueuePath (str "/") (str "a b") ∧
    (str "/" = str "/" ∧ str "a b" = str "a b") :=
  ⟨rfl, (write_paths_injective (str "/") (str "a b") (str "/") (str "a b")).1 rfl⟩

/-! ## The claims on request bodies and on the write operations -/

theorem normalise_arguments_ne_none (info : QueueSettings) :
    ∃ es, (normalise info).Arguments = some es := by
  unfold normalise
  cases h : info.Arguments with
  | none => exact ⟨[], by simp⟩
  | some es => exact ⟨es, by simp [h]⟩

theorem normalise_durable (info : QueueSettings) :
    (normalise info).Durable = info.Durable ∧ (normalise info).AutoDelete = info.AutoDelete := by
  unfold normalise
  split <;> exact ⟨rfl, rfl⟩

theorem Marshal_normalise_shape {Error : Type} (enc : Encoder Error) (info : QueueSettings) :
    (∃ e, Marshal enc (normalise info) = .error e) ∨
    ∃ members : List Bytes, Marshal enc (normalise info) =
      .ok (str "\x7b\"durable\":" ++ encodeBool info.Durable
        ++ str ",\"auto_delete\":" ++ encodeBool info.AutoDelete
        ++ str ",\"arguments\":" ++ (str "\x7b" ++ (str ",").intercalate members ++ str "\x7d")
        ++ str "\x7d") := by
  obtain ⟨es, hes⟩ := normalise_arguments_ne_none info
  obtain ⟨hd, ha⟩ := normalise_durable info
  cases hm : encodeMembers enc (sortedEntries es) with
  | error e => exact Or.inl ⟨e, by simp only [Marshal, encodeMap, hes, hm]⟩
  | ok ts => exact Or.inr ⟨ts, by simp only [Marshal, encodeMap, hes, hd, ha, hm]⟩

theorem DeclareQueue_eq_buildAndExecute {Client Request Response Error : Type}
    (h : Helpers Client Request Response Error) (c : Client) (vhost queue : Bytes)
    (info : QueueSettings) (body : Bytes) (hb : Marshal h.enc (normalise info) = .ok body) :
    DeclareQueue h c vhost queue info =
      buildAndExecute h c (str "PUT") (declareQueuePath vhost queue) (some body) := by
  unfold DeclareQueue buildAndExecute
  simp only [hb]

/-- C1: with an absent (nil) arguments mapping, the body `DeclareQueue` sends is
`{"durable":d,"auto_delete":a,"arguments":{}}`: it contains `"arguments":{}` and does not
contain `"arguments":null`. For every `QueueSettings`, the body, when serialisation succeeds,
is an object with the three members `durable`, `auto_delete`, `arguments` in which the value
of `arguments` is an object, and that body is the one `DeclareQueue` puts in its request. -/
theorem declareQueue_body_arguments_always_object :
    (∀ (Client Request Response Error : Type) (h : Helpers Client Request Response Error)
        (c : Client) (vhost queue : Bytes) (d a : Bool),
      DeclareQueue h c vhost queue ⟨d, a, none⟩ =
        buildAndExecute h c (str "PUT") (declareQueuePath vhost queue)
          (some (str "\x7b\"durable\":" ++ encodeBool d ++ str ",\"auto_delete\":"
            ++ encodeBool a ++ str ",\"arguments\":\x7b\x7d\x7d"))) ∧
    (∀ d a : Bool,
      str "\"arguments\":\x7b\x7d" <:+:
        (str "\x7b\"durable\":" ++ encodeBool d ++ str ",\"auto_delete\":"
          ++ encodeBool a ++ str ",\"arguments\":\x7b\x7d\x7d") ∧
      ¬ str "\"arguments\":null" <:+:
        (str "\x7b\"durable\":" ++ encodeBool d ++ str ",\"auto_delete\":"
          ++ encodeBool a ++ str ",\"arguments\":\x7b\x7d\x7d")) ∧
    (∀ (Error : Type) (enc : Encoder Error) (info : QueueSettings),
      (∃ e, Marshal enc (normalise info) = .error e) ∨
      ∃ members : List Bytes, Marshal enc (normalise info) =
        .ok (str "\x7b\"durable\":" ++ encodeBool info.Durable
          ++ str ",\"auto_delete\":" ++ encodeBool info.AutoDelete
          ++ str ",\"arguments\":" ++ (str "\x7b" ++ (str ",").intercalate members ++ str "\x7d")
          ++ str "\x7d")) ∧
    (∀ (Client Request Response Error : Type) (h : Helpers Client Request Response Error)
        (c : Client) (vhost queue : Bytes) (info : QueueSettings) (body : Bytes),
      Marshal h.enc (normalise info) = .ok body →
      DeclareQueue h c vhost queue info =
        buildAndExecute h c (str "PUT") (declareQueuePath vhost queue) (some body)) := by
  refine ⟨?_, by decide, fun Error enc info => Marshal_normalise_shape enc info, ?_⟩
  · intro Client Request Response Error h c vhost queue d a
    cases d <;> cases a <;> rfl
  · intro Client Request Response Error h c vhost queue info body hb
    exact DeclareQueue_eq_buildAndExecute h c vhost queue info body hb

/-- C1 at the settings durable, not auto-delete, arguments holding one null value. -/
theorem declareQueue_body_arguments_always_object_witness :
    Marshal requestTracer.enc (normalise ⟨true, false, some [(str "x", GoValue.nil)]⟩)
      = .ok (str "\x7b\"durable\":true,\"auto_delete\":false,\"arguments\":\x7b\"x\":null\x7d\x7d") ∧
    DeclareQueue requestTracer () (str "/") (str "q") ⟨true, false, some [(str "x", GoValue.nil)]⟩
      = buildAndExecute requestTracer () (str "PUT") (declareQueuePath (str "/") (str "q"))
          (some (str "\x7b\"durable\":true,\"auto_delete\":false,\"arguments\":\x7b\"x\":null\x7d\x7d")) :=
  ⟨rfl, declareQueue_body_arguments_always_object.2.2.2 Unit _ _ Unit requestTracer ()
    (str "/") (str "q") ⟨true, false, some [(str "x", GoValue.nil)]⟩ _ rfl⟩

/-- C5: `DeclareQueue` builds a PUT request on `queues/` E(v) `/` E(n) carrying the serialised
settings, `DeleteQueue` a DELETE request on the same path without body, and `PurgeQueue` a
DELETE request without body on that path followed by `/contents`, E being the escaping
function; each then executes its request. -/
theorem write_operations_method_path_body
    {Client Request Response Error : Type} (h : Helpers Client Request Response Error)
    (c : Client) (v n : Bytes) (info : QueueSettings) :
    (∀ body, Marshal h.enc (normalise info) = .ok body →
      DeclareQueue h c v n info =
        buildAndExecute h c (str "PUT")
          (str "queues/" ++ QueryEscape v ++ str "/" ++ QueryEscape n) (some body)) ∧
    DeleteQueue h c v n =
      buildAndExecute h c (str "DELETE")
        (str "queues/" ++ QueryEscape v ++ str "/" ++ QueryEscape n) none ∧
    PurgeQueue h c v n =
      buildAndExecute h c (str "DELETE")
        (str "queues/" ++ QueryEscape v ++ str "/" ++ QueryEscape n ++ str "/contents") none ∧
    purgeQueuePath v n = deleteQueuePath v n ++ str "/contents" := by
  refine ⟨?_, rfl, rfl, rfl⟩
  intro body hb
  exact DeclareQueue_eq_buildAndExecute h c v n info body hb

/-- C5 at vhost `/`, queue `a b` and empty settings: the requests built are the PUT with the
serialised body, the DELETE, and the DELETE on the path ending in `/contents`. -/
theorem write_operations_method_path_body_witness :
    (DeclareQueue requestTracer () (str "/") (str "a b") ⟨false, false, none⟩).1
      = some (str "PUT", str "queues/%2F/a+b",
          some (str "\x7b\"durable\":false,\"auto_delete\":false,\"arguments\":\x7b\x7d\x7d")) ∧
    (DeleteQueue requestTracer () (str "/") (str "a b")).1
      = some (str "DELETE", str "queues/%2F/a+b", none) ∧
    (PurgeQueue requestTracer () (str "/") (str "a b")).1
      = some (str "DELETE", str "queues/%2F/a+b/contents", none) := by
  have h := write_operations_method_path_body requestTracer () (str "/") (str "a b")
    ⟨false, false, none⟩
  refine ⟨?_, ?_, ?_⟩
  · rw [h.1 (str "\x7b\"durable\":false,\"auto_delete\":false,\"arguments\":\x7b\x7d\x7d") rfl]
    decide
  · rw [h.2.1]; decide
  · rw [h.2.2.1]; decide

theorem spec_buildAndExecute (w : Wire) (enc : Encoder ApiError) (c : ClientConfig)
    (method path : Bytes) (body : Option Bytes) (res : HTTPResponse)
    (hv : w.validURL (Spec.request c method path body).URL = true)
    (ht : w.transport (Spec.request c method path body) = some res) :
    buildAndExecute (Spec.helpers w enc) c method path body = (some res, none) := by
  simp only [buildAndExecute, Spec.helpers, Spec.newRequestWithBody, hv, if_true,
    Spec.executeRequest, ht]

/-- C6 (as stated, refuted): with a broker answering `404 Not Found`, a status outside the
success range, `DeclareQueue`, `DeleteQueue` and `PurgeQueue` return the response with a nil
error, not an error. -/
theorem write_operations_return_no_error_on_404 :
    isSuccess 404 = false ∧
    DeclareQueue (Spec.helpers wireNotFound (Encoder.simple ApiError.DecodeError)) localClient
        (str "/") (str "q") ⟨true, false, none⟩
      = (some ⟨404, str "Not Found", str "Object Not Found"⟩, none) ∧
    DeleteQueue (Spec.helpers wireNotFound (Encoder.simple ApiError.DecodeError)) localClient
        (str "/") (str "q")
      = (some ⟨404, str "Not Found", str "Object Not Found"⟩, none) ∧
    PurgeQueue (Spec.helpers wireNotFound (Encoder.simple ApiError.DecodeError)) localClient
        (str "/") (str "q")
      = (some ⟨404, str "Not Found", str "Object Not Found"⟩, none) := by
  refine ⟨by decide, rfl, rfl, rfl⟩

/-- C6 (amended): whenever the request is built and the HTTP exchange completes with a
response, whatever its status code, `DeclareQueue`, `DeleteQueue` and `PurgeQueue` return that
response with a nil error; the executor surfaces the response without inspecting the status. -/
theorem write_operations_return_response_whatever_status
    (w : Wire) (enc : Encoder ApiError) (c : ClientConfig) (v n : Bytes) (info : QueueSettings)
    (res : HTTPResponse) :
    (∀ body, Marshal enc (normalise info) = .ok body →
      w.validURL (Spec.request c (str "PUT") (declareQueuePath v n) (some body)).URL = true →
      w.transport (Spec.request c (str "PUT") (declareQueuePath v n) (some body)) = some res →
      DeclareQueue (Spec.helpers w enc) c v n info = (some res, none)) ∧
    (w.validURL (Spec.request c (str "DELETE") (deleteQueuePath v n) none).URL = true →
      w.transport (Spec.request c (str "DELETE") (deleteQueuePath v n) none) = some res →
      DeleteQueue (Spec.helpers w enc) c v n = (some res, none)) ∧
    (w.validURL (Spec.request c (str "DELETE") (purgeQueuePath v n) none).URL = true →
      w.transport (Spec.request c (str "DELETE") (purgeQueuePath v n) none) = some res →
      PurgeQueue (Spec.helpers w enc) c v n = (some res, none)) ∧
    (∀ req, w.transport req = some res → Spec.executeRequest w c req = .ok res) := by
  refine ⟨?_, ?_, ?_, ?_⟩
  · intro body hb hv ht
    rw [DeclareQueue_eq_buildAndExecute (Spec.helpers w enc) c v n info body hb]
    exact spec_buildAndExecute w enc c _ _ _ res hv ht
  · intro hv ht
    exact spec_buildAndExecute w enc c _ _ _ res hv ht
  · intro hv ht
    exact spec_buildAndExecute w enc c _ _ _ res hv ht
  · intro req ht
    simp only [Spec.executeRequest, ht]

/-- C6 (amended) at a broker answering `404 Not Found` to a deletion of queue `q` in vhost
`/`. -/
theorem write_operations_return_response_whatever_status_witness :
    DeleteQueue (Spec.helpers wireNotFound (Encoder.simple ApiError.DecodeError)) localClient
        (str "/") (str "q")
      = (some ⟨404, str "Not Found", str "Object Not Found"⟩, none) :=
  (write_operations_return_response_whatever_status wireNotFound
    (Encoder.simple ApiError.DecodeError) localClient (str "/") (str "q") ⟨false, false, none⟩
    ⟨404, str "Not Found", str "Object Not Found"⟩).2.1 rfl rfl

/-! ## The claims on the read operations -/

/-- C7: the read operations are all-or-nothing. When request construction fails, or
`executeAndParseRequest` returns an error, `ListQueues` and `ListQueuesIn` return that error
with the empty sequence and `GetQueue` returns it with nil, whatever was written into the
target; an operation that returns an error returns no payload. -/
theorem read_operations_all_or_nothing {X : Extern} {Client Request Error : Type}
    (h : ReadHelpers X Client Request Error) (c : Client) (vhost queue : Bytes) :
    (∀ err, h.newGETRequest c listQueuesPath = .error err →
      ListQueues h c = (some [], some err)) ∧
    (∀ req rec err, h.newGETRequest c listQueuesPath = .ok req →
      h.executeAndParseList c req none = (rec, some err) →
      ListQueues h c = (some [], some err)) ∧
    (∀ err, h.newGETRequest c (listQueuesInPath vhost) = .error err →
      ListQueuesIn h c vhost = (some [], some err)) ∧
    (∀ req rec err, h.newGETRequest c (listQueuesInPath vhost) = .ok req →
      h.executeAndParseList c req none = (rec, some err) →
      ListQueuesIn h c vhost = (some [], some err)) ∧
    (∀ err, h.newGETRequest c (getQueuePath vhost queue) = .error err →
      GetQueue h c vhost queue = (none, some err)) ∧
    (∀ req rec err, h.newGETRequest c (getQueuePath vhost queue) = .ok req →
      h.executeAndParseOne c req none = (rec, some err) →
      GetQueue h c vhost queue = (none, some err)) ∧
    ((ListQueues h c).2 ≠ none → (ListQueues h c).1 = some []) ∧
    ((ListQueuesIn h c vhost).2 ≠ none → (ListQueuesIn h c vhost).1 = some []) ∧
    ((GetQueue h c vhost queue).2 ≠ none → (GetQueue h c vhost queue).1 = none) := by
  refine ⟨?_, ?_, ?_, ?_, ?_, ?_, ?_, ?_, ?_⟩
  · intro err he
    simp only [ListQueues, he]
  · intro req rec err hr hp
    simp only [ListQueues, hr, hp]
  · intro err he
    simp only [ListQueuesIn, he]
  · intro req rec err hr hp
    simp only [ListQueuesIn, hr, hp]
  · intro err he
    simp only [GetQueue, he]
  · intro req rec err hr hp
    simp only [GetQueue, hr, hp]
  · unfold ListQueues
    split
    · intro _; rfl
    · split
      · intro _; rfl
      · intro hne; exact absurd rfl hne
  · unfold ListQueuesIn
    split
    · intro _; rfl
    · split
      · intro _; rfl
      · intro hne; exact absurd rfl hne
  · unfold GetQueue
    split
    · intro _; rfl
    · split
      · intro _; rfl
      · intro hne; exact absurd rfl hne

/-- C7 at a broker whose 200 response holds a queue object followed by a number: the decoder
has written two elements into the target when it reports the mismatch, and `ListQueues`
returns the decode error with the empty sequence. -/
theorem read_operations_all_or_nothing_witness :
    (Spec.readHelpers Extern.simple wireIllTyped).executeAndParseList localClient
        (Spec.request localClient (str "GET") listQueuesPath none) none
      = (some [(QueueInfo.setField Extern.simple 0 (Value.string (str "q"))
            (QueueInfo.zero Extern.simple)).1, QueueInfo.zero Extern.simple],
          some ApiError.DecodeError) ∧
    ListQueues (Spec.readHelpers Extern.simple wireIllTyped) localClient
      = (some [], some ApiError.DecodeError) :=
  ⟨rfl, (read_operations_all_or_nothing (Spec.readHelpers Extern.simple wireIllTyped)
    localClient [] []).2.1 _ _ ApiError.DecodeError rfl rfl⟩

theorem spec_executeAndParseList (X : Extern) (w : Wire) (c : ClientConfig) (path : Bytes)
    (res : HTTPResponse) (v : Value)
    (hv : w.validURL (Spec.request c (str "GET") path none).URL = true)
    (ht : w.transport (Spec.request c (str "GET") path none) = some res)
    (hs : isSuccess res.StatusCode = true) (hp : w.parseJSON res.Body = some v) :
    (Spec.readHelpers X w).newGETRequest c path = .ok (Spec.request c (str "GET") path none) ∧
    (Spec.readHelpers X w).executeAndParseList c (Spec.request c (str "GET") path none) none
      = ((storeQueueInfos X v none).1,
          if (storeQueueInfos X v none).2 then none else some ApiError.DecodeError) := by
  constructor
  · simp only [Spec.readHelpers, Spec.newGETRequest, Spec.newRequestWithBody, hv, if_true]
  · simp only [Spec.readHelpers, Spec.executeAndParseRequest, Spec.executeRequest, ht, hs,
      if_true, hp]

/-- C8 (as stated, refuted): on a `200 OK` response with body `null`, which the decoder
accepts without error, `ListQueuesIn` and `ListQueues` return a nil error with the nil
sequence, not the empty non-nil sequence they return for the body `[]`. -/
theorem list_operations_null_body_returns_nil_sequence :
    isSuccess 200 = true ∧
    ListQueuesIn (Spec.readHelpers Extern.simple (wireOK (str "null"))) localClient (str "/")
      = (none, none) ∧
    ListQueues (Spec.readHelpers Extern.simple (wireOK (str "null"))) localClient
      = (none, none) ∧
    ListQueuesIn (Spec.readHelpers Extern.simple (wireOK (str "[]"))) localClient (str "/")
      = (some [], none) ∧
    (ListQueuesIn (Spec.readHelpers Extern.simple (wireOK (str "null"))) localClient
      (str "/")).1 ≠ some [] := by
  refine ⟨by decide, rfl, rfl, rfl, ?_⟩
  intro h
  have h2 : (none : Slice (QueueInfo Extern.simple)) = some [] := h
  cases h2

/-- C8 (amended): for a 2xx response to `ListQueuesIn` or `ListQueues`, the operation returns
a nil error with the empty non-nil sequence when the body is the empty JSON array, and a nil
error with the nil sequence when the body is JSON null. -/
theorem list_operations_zero_queues (X : Extern) (w : Wire) (c : ClientConfig) (vhost : Bytes)
    (res : HTTPResponse) (hs : isSuccess res.StatusCode = true) :
    (w.validURL (Spec.request c (str "GET") (listQueuesInPath vhost) none).URL = true →
      w.transport (Spec.request c (str "GET") (listQueuesInPath vhost) none) = some res →
      (w.parseJSON res.Body = some (Value.array []) →
        ListQueuesIn (Spec.readHelpers X w) c vhost = (some [], none)) ∧
      (w.parseJSON res.Body = some Value.null →
        ListQueuesIn (Spec.readHelpers X w) c vhost = (none, none))) ∧
    (w.validURL (Spec.request c (str "GET") listQueuesPath none).URL = true →
      w.transport (Spec.request c (str "GET") listQueuesPath none) = some res →
      (w.parseJSON res.Body = some (Value.array []) →
        ListQueues (Spec.readHelpers X w) c = (some [], none)) ∧
      (w.parseJSON res.Body = some Value.null →
        ListQueues (Spec.readHelpers X w) c = (none, none))) := by
  refine ⟨fun hv ht => ⟨fun hp => ?_, fun hp => ?_⟩, fun hv ht => ⟨fun hp => ?_, fun hp => ?_⟩⟩
  · obtain ⟨h1, h2⟩ := spec_executeAndParseList X w c _ res _ hv ht hs hp
    simp only [ListQueuesIn, h1, h2]
    rfl
  · obtain ⟨h1, h2⟩ := spec_executeAndParseList X w c _ res _ hv ht hs hp
    simp only [ListQueuesIn, h1, h2]
    rfl
  · obtain ⟨h1, h2⟩ := spec_executeAndParseList X w c _ res _ hv ht hs hp
    simp only [ListQueues, h1, h2]
    rfl
  · obtain ⟨h1, h2⟩ := spec_executeAndParseList X w c _ res _ hv ht hs hp
    simp only [ListQueues, h1, h2]
    rfl

/-- C8 (amended) at a broker answering `200 OK` with the body `[]` to the listing of the
default vhost. -/
theorem list_operations_zero_queues_witness :
    ListQueuesIn (Spec.readHelpers Extern.simple (wireOK (str "[]"))) localClient (str "/")
      = (some [], none) :=
  ((list_operations_zero_queues Extern.simple (wireOK (str "[]")) localClient (str "/")
    ⟨200, str "OK", str "[]"⟩ (by decide)).1 rfl rfl).1 rfl

/-! ## Decoding a snapshot and re-deriving the settings -/

theorem findField_of_mem (equalFold : Bytes → Bytes → Bool) (tags : List Bytes) (k : Bytes)
    (hk : k ∈ tags) : findField equalFold tags k = some (tags.findIdx (fun t => t = k)) := by
  unfold findField
  rw [if_pos hk]

theorem findIdx_ne_of_ne (tags : List Bytes) (k k0 : Bytes) (hk : k ∈ tags) (hne : k ≠ k0)
    (hk0 : k0 ∈ tags) :
    tags.findIdx (fun t => t = k) ≠ tags.findIdx (fun t => t = k0) := by
  intro h
  apply hne
  have l1 : tags.findIdx (fun t => t = k) < tags.length :=
    List.findIdx_lt_length_of_exists ⟨k, hk, by simp⟩
  have l2 : tags.findIdx (fun t => t = k0) < tags.length :=
    List.findIdx_lt_length_of_exists ⟨k0, hk0, by simp⟩
  have h1 := List.findIdx_getElem (w := l1)
  have h2 := List.findIdx_getElem (w := l2)
  simp only [decide_eq_true_eq] at h1 h2
  rw [← h1, ← h2]
  simp only [h]

theorem QueueInfo.setField_Durable (X : Extern) (i : Nat) (v : Value) (q : QueueInfo X)
    (hi : i ≠ 2) : (QueueInfo.setField X i v q).1.Durable = q.Durable := by
  unfold QueueInfo.setField
  split <;> first | rfl | exact absurd rfl hi

theorem QueueInfo.setField_AutoDelete (X : Extern) (i : Nat) (v : Value) (q : QueueInfo X)
    (hi : i ≠ 3) : (QueueInfo.setField X i v q).1.AutoDelete = q.AutoDelete := by
  unfold QueueInfo.setField
  split <;> first | rfl | exact absurd rfl hi

theorem QueueInfo.setField_Arguments (X : Extern) (i : Nat) (v : Value) (q : QueueInfo X)
    (hi : i ≠ 4) : (QueueInfo.setField X i v q).1.Arguments = q.Arguments := by
  unfold QueueInfo.setField
  split <;> first | rfl | exact absurd rfl hi

section DecodeFields

variable {X : Extern} {α : Type} (proj : QueueInfo X → α) (k0 : Bytes)
  (hk0 : k0 ∈ QueueInfo.tags)
  (hproj : ∀ i v q, i ≠ QueueInfo.tags.findIdx (fun t => t = k0) → proj (QueueInfo.setField X i v q).1 = proj q)

include hk0 hproj

theorem decodeMembers_preserves :
    ∀ (ms : List (Bytes × Value)) (q : QueueInfo X) (ok : Bool),
      (∀ e ∈ ms, e.1 ∈ QueueInfo.tags) → (∀ e ∈ ms, e.1 ≠ k0) →
      proj (decodeMembers (findField X.equalFold QueueInfo.tags) (QueueInfo.setField X) ms
        (q, ok)).1 = proj q
  | [], _, _, _, _ => rfl
  | (k, v) :: rest, q, ok, htags, hne => by
    have hk : k ∈ QueueInfo.tags := htags (k, v) (List.mem_cons_self _ _)
    have hkne : k ≠ k0 := hne (k, v) (List.mem_cons_self _ _)
    simp only [decodeMembers, findField_of_mem _ _ _ hk]
    rw [decodeMembers_preserves rest _ _ (fun e he => htags e (List.mem_cons_of_mem _ he))
      (fun e he => hne e (List.mem_cons_of_mem _ he))]
    exact hproj _ _ _ (findIdx_ne_of_ne _ _ _ hk hkne hk0)

theorem decodeMembers_sets (v0 : Value) (p0 a : α)
    (hset : ∀ q, proj q = p0 → proj (QueueInfo.setField X (QueueInfo.tags.findIdx (fun t => t = k0)) v0 q).1 = a) :
    ∀ (ms : List (Bytes × Value)) (q : QueueInfo X) (ok : Bool),
      proj q = p0 → (∀ e ∈ ms, e.1 ∈ QueueInfo.tags) → (ms.map (·.1)).Nodup → (k0, v0) ∈ ms →
      proj (decodeMembers (findField X.equalFold QueueInfo.tags) (QueueInfo.setField X) ms
        (q, ok)).1 = a
  | [], _, _, _, _, _, hmem => absurd hmem (List.not_mem_nil _)
  | (k, v) :: rest, q, ok, hq, htags, hnd, hmem => by
    have hk : k ∈ QueueInfo.tags := htags (k, v) (List.mem_cons_self _ _)
    rw [List.map_cons, List.nodup_cons] at hnd
    simp only [decodeMembers, findField_of_mem _ _ _ hk]
    rcases List.mem_cons.mp hmem with heq | hin
    · obtain ⟨rfl, rfl⟩ := Prod.mk.inj heq
      rw [decodeMembers_preserves proj k0 hk0 hproj rest _ _
        (fun e he => htags e (List.mem_cons_of_mem _ he))
        (fun e he hek => hnd.1 (List.mem_map.mpr ⟨e, he, hek⟩))]
      exact hset q hq
    · have hkne : k ≠ k0 := fun hek =>
        hnd.1 (List.mem_map.mpr ⟨(k0, v0), hin, hek.symm⟩)
      exact decodeMembers_sets v0 p0 a hset rest _ _
        ((hproj _ _ _ (findIdx_ne_of_ne _ _ _ hk hkne hk0)).trans hq)
        (fun e he => htags e (List.mem_cons_of_mem _ he)) hnd.2 hin

end DecodeFields

/-! ## Dynamic values through JSON -/

theorem mapSet_of_not_mem (acc : List (Bytes × GoValue)) (k : Bytes) (v : GoValue)
    (h : k ∉ keysOf acc) : mapSet acc k v = acc ++ [(k, v)] := by
  have hnot : acc.any (fun x => x.1 = k) = false := by
    rw [List.any_eq_false]
    intro x hx hxe
    have hxe2 : x.1 = k := by simpa using hxe
    exact h (List.mem_map.mpr ⟨x, hx, hxe2⟩)
  unfold mapSet
  rw [hnot]
  rfl

mutual

theorem fromJSON_jsonOf (fmt : Float64 → Bytes) :
    ∀ v : GoValue, decodable fmt v = true → fromJSON (jsonOf fmt v) = (v, true)
  | .nil, _ => by simp only [jsonOf, fromJSON]
  | .bool _, _ => by simp only [jsonOf, fromJSON]
  | .int _, h => by simp [decodable] at h
  | .float64 f, h => by
    have hf : parseFloat64 (fmt f) = some f := by simpa [decodable] using h
    simp only [jsonOf, fromJSON, hf]
  | .string _, _ => by simp only [jsonOf, fromJSON]
  | .slice xs, h => by
    have hx : decodableList fmt xs = true := by simpa [decodable] using h
    simp only [jsonOf, fromJSON, fromJSONList_jsonOfList fmt xs hx]
  | .map es, h => by
    have hx : decodableEntries fmt es = true ∧ (keysOf es).Nodup := by
      simpa [decodable] using h
    simp only [jsonOf, fromJSON,
      fromJSONMembers_jsonOfEntries fmt es [] hx.1 (by simpa using hx.2), List.nil_append]

theorem fromJSONList_jsonOfList (fmt : Float64 → Bytes) :
    ∀ xs : List GoValue, decodableList fmt xs = true →
      fromJSONList (jsonOfList fmt xs) = (xs, true)
  | [], _ => by simp only [jsonOfList, fromJSONList]
  | x :: xs, h => by
    have hx : decodable fmt x = true ∧ decodableList fmt xs = true := by
      simpa [decodableList] using h
    simp only [jsonOfList, fromJSONList, fromJSON_jsonOf fmt x hx.1,
      fromJSONList_jsonOfList fmt xs hx.2, Bool.and_self]

theorem fromJSONMembers_jsonOfEntries (fmt : Float64 → Bytes) :
    ∀ (es acc : List (Bytes × GoValue)), decodableEntries fmt es = true →
      (keysOf (acc ++ es)).Nodup →
      fromJSONMembers (jsonOfEntries fmt es) acc = (acc ++ es, true)
  | [], acc, _, _ => by simp only [jsonOfEntries, fromJSONMembers, List.append_nil]
  | (k, v) :: es, acc, h, hnd => by
    have hx : decodable fmt v = true ∧ decodableEntries fmt es = true := by
      simpa [decodableEntries] using h
    have hk : k ∉ keysOf acc := by
      unfold keysOf at hnd ⊢
      rw [List.map_append, List.map_cons] at hnd
      exact fun hm => (List.nodup_append.mp hnd).2.2 hm (List.mem_cons_self _ _)
    have hnd2 : (keysOf ((acc ++ [(k, v)]) ++ es)).Nodup := by
      simpa [keysOf] using hnd
    simp only [jsonOfEntries, fromJSONMembers, fromJSON_jsonOf fmt v hx.1,
      mapSet_of_not_mem acc k v hk,
      fromJSONMembers_jsonOfEntries fmt es (acc ++ [(k, v)]) hx.2 hnd2, Bool.and_self,
      List.append_assoc, List.singleton_append]

end

theorem storeMap_jsonOfEntries (fmt : Float64 → Bytes) (es : List (Bytes × GoValue))
    (hdec : decodableEntries fmt es = true) (hkeys : (keysOf es).Nodup) :
    storeMap (Value.object (jsonOfEntries fmt es)) none = (some es, true) := by
  have h := fromJSONMembers_jsonOfEntries fmt es [] hdec (by simpa using hkeys)
  simp only [storeMap, Option.getD_none, h, List.nil_append]

/-- C9 (as stated, refuted): the settings whose arguments hold the integer 9007199254740993
under the key `n` are carried by the JSON member `"n":9007199254740993`; decoding the object
with that member gives the arguments `n` = the `float64` 9007199254740992, so the settings
re-derived from the decoded `QueueInfo` are not the declared ones. -/
theorem settings_round_trip_fails_on_integer_argument :
    (∀ fmt, jsonOfEntries fmt [(str "n", GoValue.int 9007199254740993)]
      = [(str "n", Value.number (str "9007199254740993"))]) ∧
    (storeQueueInfo Extern.simple
      (Value.object [(str "durable", Value.bool true), (str "auto_delete", Value.bool false),
        (str "arguments", Value.object [(str "n", Value.number (str "9007199254740993"))])])
      (QueueInfo.zero Extern.simple)).1.settings
      = ⟨true, false, some [(str "n", GoValue.float64 ⟨1, 53⟩)]⟩ ∧
    Float64.toInt ⟨1, 53⟩ = some 9007199254740992 ∧
    (storeQueueInfo Extern.simple
      (Value.object [(str "durable", Value.bool true), (str "auto_delete", Value.bool false),
        (str "arguments", Value.object [(str "n", Value.number (str "9007199254740993"))])])
      (QueueInfo.zero Extern.simple)).1.settings
      ≠ normalise ⟨true, false, some [(str "n", GoValue.int 9007199254740993)]⟩ := by
  have hdecoded : (storeQueueInfo Extern.simple
      (Value.object [(str "durable", Value.bool true), (str "auto_delete", Value.bool false),
        (str "arguments", Value.object [(str "n", Value.number (str "9007199254740993"))])])
      (QueueInfo.zero Extern.simple)).1.settings
      = ⟨true, false, some [(str "n", GoValue.float64 ⟨1, 53⟩)]⟩ := by rfl
  refine ⟨fun fmt => by rfl, hdecoded, by decide, ?_⟩
  rw [hdecoded]
  intro h
  have h2 : (some [(str "n", GoValue.float64 ⟨1, 53⟩)] : GoMap)
      = some [(str "n", GoValue.int 9007199254740993)] := congrArg QueueSettings.Arguments h
  simp at h2

/-- C9 (amended): for settings `s` whose arguments (after the nil-arguments normalisation)
hold only values of the types the decoder produces (nil, `bool`, `string`, `float64` whose
written literal reads back as the same `float64`, slices and maps of such values) under
pairwise distinct keys, decoding into a `QueueInfo` a JSON object whose members carry
documented `QueueInfo` keys, each once, among them `durable`, `auto_delete` and `arguments`
with the values of `s`, and re-deriving the settings from the result gives `s` again; the
arguments member is stored without mismatch; `QueueSettings` uses the keys `durable`,
`auto_delete`, `arguments`, which are the keys of the third to fifth fields of `QueueInfo`. -/
theorem settings_round_trip_of_decodable_arguments (X : Extern) (fmt : Float64 → Bytes)
    (s : QueueSettings) (ms : List (Bytes × Value))
    (hdec : decodableEntries fmt ((normalise s).Arguments.getD []) = true)
    (hkeys : (keysOf ((normalise s).Arguments.getD [])).Nodup)
    (htags : ∀ e ∈ ms, e.1 ∈ QueueInfo.tags)
    (hnd : (ms.map (·.1)).Nodup)
    (hd : (str "durable", Value.bool s.Durable) ∈ ms)
    (ha : (str "auto_delete", Value.bool s.AutoDelete) ∈ ms)
    (hg : (str "arguments",
      Value.object (jsonOfEntries fmt ((normalise s).Arguments.getD []))) ∈ ms) :
    (storeQueueInfo X (Value.object ms) (QueueInfo.zero X)).1.settings = normalise s ∧
    (storeMap (Value.object (jsonOfEntries fmt ((normalise s).Arguments.getD []))) none).2
      = true ∧
    QueueSettings.tags = [str "durable", str "auto_delete", str "arguments"] ∧
    QueueSettings.tags = (QueueInfo.tags.drop 2).take 3 := by
  obtain ⟨es, hes⟩ := normalise_arguments_ne_none s
  obtain ⟨hnd1, hna⟩ := normalise_durable s
  rw [hes] at hdec hkeys hg ⊢
  simp only [Option.getD_some] at hdec hkeys hg ⊢
  have hstore := storeMap_jsonOfEntries fmt es hdec hkeys
  refine ⟨?_, by rw [hstore], rfl, by decide⟩
  have h1 : (storeQueueInfo X (Value.object ms) (QueueInfo.zero X)).1.Durable = s.Durable :=
    decodeMembers_sets (fun q => q.Durable) (str "durable") (by decide)
      (fun i v q hi => QueueInfo.setField_Durable X i v q hi) (Value.bool s.Durable) false
      s.Durable (fun q _ => rfl) ms _ _ rfl htags hnd hd
  have h2 : (storeQueueInfo X (Value.object ms) (QueueInfo.zero X)).1.AutoDelete
      = s.AutoDelete :=
    decodeMembers_sets (fun q => q.AutoDelete) (str "auto_delete") (by decide)
      (fun i v q hi => QueueInfo.setField_AutoDelete X i v q hi) (Value.bool s.AutoDelete) false
      s.AutoDelete (fun q _ => rfl) ms _ _ rfl htags hnd ha
  have h3 : (storeQueueInfo X (Value.object ms) (QueueInfo.zero X)).1.Arguments = some es :=
    decodeMembers_sets (fun q => q.Arguments) (str "arguments") (by decide)
      (fun i v q hi => QueueInfo.setField_Arguments X i v q hi)
      (Value.object (jsonOfEntries fmt es)) none (some es)
      (fun q hq => by
        show (storeMap (Value.object (jsonOfEntries fmt es)) q.Arguments).1 = some es
        have hq2 : q.Arguments = none := hq
        rw [hq2, hstore])
      ms _ _ rfl htags hnd hg
  have hn : normalise s = ⟨s.Durable, s.AutoDelete, some es⟩ := by
    cases hns : normalise s with
    | mk d a g =>
      rw [hns] at hes hnd1 hna
      simp only at hes hnd1 hna
      rw [hes, hnd1, hna]
  rw [hn]
  unfold QueueInfo.settings
  rw [h1, h2, h3]

/-- C9 (amended) at a durable queue whose arguments hold a `float64`, a string and a slice,
decoded from an object that also carries the name, the vhost and a message count. -/
theorem settings_round_trip_of_decodable_arguments_witness :
    (storeQueueInfo Extern.simple
      (Value.object [(str "name", Value.string (str "q")), (str "vhost", Value.string (str "/")),
        (str "durable", Value.bool true), (str "auto_delete", Value.bool false),
        (str "arguments", Value.object
          [(str "x-message-ttl", Value.number (str "60000")),
           (str "x-dead-letter-exchange", Value.string (str "dlx")),
           (str "x-flags", Value.array [Value.bool true, Value.null])]),
        (str "messages", Value.number (str "3"))])
      (QueueInfo.zero Extern.simple)).1.settings
      = ⟨true, false, some [(str "x-message-ttl", GoValue.float64 ⟨1875, 5⟩),
          (str "x-dead-letter-exchange", GoValue.string (str "dlx")),
          (str "x-flags", GoValue.slice [GoValue.bool true, GoValue.nil])]⟩ :=
  (settings_round_trip_of_decodable_arguments Extern.simple formatIntegral
    ⟨true, false, some [(str "x-message-ttl", GoValue.float64 ⟨1875, 5⟩),
      (str "x-dead-letter-exchange", GoValue.string (str "dlx")),
      (str "x-flags", GoValue.slice [GoValue.bool true, GoValue.nil])]⟩
    [(str "name", Value.string (str "q")), (str "vhost", Value.string (str "/")),
      (str "durable", Value.bool true), (str "auto_delete", Value.bool false),
      (str "arguments", Value.object
        [(str "x-message-ttl", Value.number (str "60000")),
         (str "x-dead-letter-exchange", Value.string (str "dlx")),
         (str "x-flags", Value.array [Value.bool true, Value.null])]),
      (str "messages", Value.number (str "3"))]
    (by decide) (by decide)
    (by
      intro e he
      simp only [List.mem_cons, List.mem_singleton, List.not_mem_nil, or_false] at he
      rcases he with rfl | rfl | rfl | rfl | rfl | rfl <;> decide)
    (by decide)
    (List.Mem.tail _ (List.Mem.tail _ (List.Mem.head _)))
    (List.Mem.tail _ (List.Mem.tail _ (List.Mem.tail _ (List.Mem.head _))))
    (List.Mem.tail _ (List.Mem.tail _ (List.Mem.tail _ (List.Mem.tail _
      (List.Mem.head _)))))).1

end RabbitHole
